import Mathlib

/-!
# Verification of the GMAT-Automation report correlation pipeline

Shallow embedding of the algorithmic core of the GMAT-Automation
repository (report classification, time-window extraction, correlated
data selection, formula emission, the batch runner and small utility
routines), together with proofs and refutations of the specified
properties.

Sources embedded (file and line references are to the repository):
* `src/modelgen/ContactReports.py` — `CContactReports.extend`, `setlinks`
* `src/gmatautomation/reportgen/LinkBudgets.py` — `CLinkBudgets.formulas`
* `src/modelgen/reduce_report.py` — `lines_from_csv`
* `src/modelcontrol/gmat_batcher.py` — `run_gmat`
-/

namespace GMATAuto

/-! ## Python exceptions

The exception classes raised by the code embedded below; in
`CContactReports.extend` all of them are caught by the handlers at
ContactReports.py lines 457-484 (`TypeError` and other unforeseen
classes by the generic `except Exception` at line 481). -/

inductive PyErr where
  | valueError (msg : String)
  | typeError
  | attributeError
  | nameError
  | indexError
deriving Repr, DecidableEq

instance exceptDecEq {ε α : Type} [DecidableEq ε] [DecidableEq α] :
    DecidableEq (Except ε α) := fun a b =>
  match a, b with
  | .ok x, .ok y =>
    if h : x = y then isTrue (by rw [h]) else isFalse fun hc => h (Except.ok.inj hc)
  | .error x, .error y =>
    if h : x = y then isTrue (by rw [h]) else isFalse fun hc => h (Except.error.inj hc)
  | .ok _, .error _ => isFalse Except.noConfusion
  | .error _, .ok _ => isFalse Except.noConfusion

/-! ## Correlated Data Selector (C1)

`CContactReports.extend` (ContactReports.py lines 322-324 and 349-372)
selects the Link Report rows for one visibility window with

    lreprng  = lrsheet.range('A1').expand()
    a1gregs  = lreprng.columns[0].value
    ...
    rowstart = bisect.bisect_left(a1gregs, starttime)
    rowstop  = bisect.bisect_right(a1gregs, stoptime)
    for row in range(rowstart, rowstop): ...

The expanded range spans the whole sheet *including the heading row*
(`CLinkReports.extend` always writes the `A1Gregorian` heading into row
0 of the `Report` sheet), so `a1gregs[0]` is the heading *string* and
`a1gregs[1:]` are the datetime cells.  A `Cell` is one entry of that
column; comparing the heading cell with a datetime — in either order —
raises `TypeError` in Python 3, so the CPython bisect loops are
embedded with `Except`-valued probes.  CPython's loop shape is

    while lo < hi:
        mid = (lo + hi) // 2
        if <test on a[mid]>: lo = mid + 1
        else: hi = mid
    return lo

where the test is `a[mid] < x` for `bisect_left` and `not (x < a[mid])`
for `bisect_right`. -/

/-- One cell of the expanded column A: the row-0 heading string or a
datetime value. -/
inductive Cell where
  | header (s : String)
  | time (t : Int)
deriving Repr, DecidableEq

/-- Python evaluation of `a[mid] < x` for a datetime `x`: comparing the
heading string with a datetime raises `TypeError`. -/
def cellLtTime : Cell → Int → Except PyErr Bool
  | .header _, _ => .error .typeError
  | .time t, x => .ok (decide (t < x))

/-- Python evaluation of `x < a[mid]` for a datetime `x`: comparing a
datetime with the heading string raises `TypeError`. -/
def timeLtCell : Int → Cell → Except PyErr Bool
  | _, .header _ => .error .typeError
  | x, .time t => .ok (decide (x < t))

/-- The shared `while lo < hi` loop of CPython `bisect_left` and
`bisect_right` with an exception-raising probe `q`: advance `lo` past
`mid` while `q a[mid]` holds, cut `hi` to `mid` otherwise, and
propagate a raised exception. -/
def bisectLoopE (q : Cell → Except PyErr Bool) (a : List Cell) (lo hi : Nat) :
    Except PyErr Nat :=
  if h : lo < hi then
    let mid := (lo + hi) / 2
    match q (a.getD mid (.time 0)) with
    | .error e => .error e
    | .ok true => bisectLoopE q a (mid + 1) hi
    | .ok false => bisectLoopE q a lo mid
  else .ok lo
termination_by hi - lo
decreasing_by
  · omega
  · omega

/-- Embeds `bisect.bisect_left(a1gregs, starttime)` on the raw column
cells: the loop test is `a[mid] < x`. -/
def bisect_left (a : List Cell) (x : Int) : Except PyErr Nat :=
  bisectLoopE (fun c => cellLtTime c x) a 0 a.length

/-- Embeds `bisect.bisect_right(a1gregs, stoptime)`: CPython tests
`x < a[mid]`, setting `hi = mid` on true and `lo = mid + 1` on false,
i.e. the advance-on-true loop runs on the negation of that test. -/
def bisect_right (a : List Cell) (x : Int) : Except PyErr Nat :=
  bisectLoopE (fun c =>
    match timeLtCell x c with
    | .error e => .error e
    | .ok b => .ok (!b)) a 0 a.length

/-- Embeds ContactReports.py lines 354 and 361 in source order:
`rowstart` is computed first, then `rowstop`; rows
`[rowstart, rowstop)` of the same expanded range are then extracted.
A raised `TypeError` propagates to the generic `except Exception`
handler at line 481, aborting the whole file. -/
def contactRange (a1gregs : List Cell) (starttime stoptime : Int) :
    Except PyErr (Nat × Nat) :=
  match bisect_left a1gregs starttime with
  | .error e => .error e
  | .ok rowstart =>
    match bisect_right a1gregs stoptime with
    | .error e => .error e
    | .ok rowstop => .ok (rowstart, rowstop)

/-- The timestamp column as the code reads it: the heading string of
row 0 followed by the data-row datetimes. -/
def linkColumn (hstr : String) (ts : List Int) : List Cell :=
  .header hstr :: ts.map .time

theorem linkColumn_length (hstr : String) (ts : List Int) :
    (linkColumn hstr ts).length = ts.length + 1 := by
  simp [linkColumn]

theorem linkColumn_getD (hstr : String) (ts : List Int) (i : Nat)
    (h1 : 1 ≤ i) (h2 : i < ts.length + 1) :
    (linkColumn hstr ts).getD i (Cell.time 0) = .time (ts.getD (i - 1) 0) := by
  obtain ⟨j, rfl⟩ : ∃ j, i = j + 1 := ⟨i - 1, by omega⟩
  have hj : j < ts.length := by omega
  show (Cell.header hstr :: ts.map Cell.time).getD (j + 1) (Cell.time 0) = _
  rw [List.getD_cons_succ]
  simp only [Nat.add_sub_cancel]
  rw [List.getD_eq_getElem?_getD, List.getElem?_map, List.getElem?_eq_getElem hj,
    List.getD_eq_getElem?_getD, List.getElem?_eq_getElem hj]
  rfl

/-- On a `≤`-sorted list, a predicate `q` that is downward closed along
`≤` holds exactly on the index prefix of length `countP q`. -/
theorem countP_index (q : Int → Bool)
    (hmono : ∀ u v : Int, u ≤ v → q v = true → q u = true) :
    ∀ (a : List Int), a.Pairwise (· ≤ ·) →
      ∀ i, i < a.length → ((i < a.countP q) ↔ q (a.getD i 0) = true) := by
  intro a
  induction a with
  | nil => intro _ i h; simp at h
  | cons x t ih =>
    intro hp i hlen
    have hx : ∀ b ∈ t, x ≤ b := (List.pairwise_cons.mp hp).1
    have ht : t.Pairwise (· ≤ ·) := (List.pairwise_cons.mp hp).2
    rw [List.countP_cons]
    by_cases hqx : q x = true
    · rw [if_pos hqx]
      cases i with
      | zero =>
        rw [List.getD_cons_zero]
        simpa [hqx] using Nat.succ_pos _
      | succ j =>
        rw [List.getD_cons_succ]
        have hjlen : j < t.length := by simpa using hlen
        have := ih ht j hjlen
        rw [← this]
        omega
    · have hqx' : q x = false := by simpa using hqx
      have htz : t.countP q = 0 := by
        rw [List.countP_eq_zero]
        intro b hb hqb
        exact hqx (hmono x b (hx b hb) hqb)
      rw [htz, if_neg hqx]
      cases i with
      | zero =>
        rw [List.getD_cons_zero]
        simp [hqx']
      | succ j =>
        rw [List.getD_cons_succ]
        have hjlen : j < t.length := by simpa using hlen
        have hbmem : t.getD j 0 ∈ t := by
          rw [List.getD_eq_getElem t 0 hjlen]
          exact List.getElem_mem hjlen
        have hqf : q (t.getD j 0) = false := by
          by_contra hc
          have hqt : q (t.getD j 0) = true := by simpa using hc
          exact List.countP_eq_zero.mp htz _ hbmem hqt
        constructor
        · intro hcon
          omega
        · intro hqt
          rw [hqf] at hqt
          cases hqt

/-- A strictly increasing list is bounded below by its head. -/
theorem pairwise_head_le (ts : List Int) (hs : ts.Pairwise (· < ·)) :
    ∀ j, j < ts.length → ts.getD 0 0 ≤ ts.getD j 0 := by
  cases ts with
  | nil => intro j hj; simp at hj
  | cons x t =>
    intro j hj
    cases j with
    | zero => exact le_refl _
    | succ m =>
      rw [List.getD_cons_zero, List.getD_cons_succ]
      have hx : ∀ b ∈ t, x < b := (List.pairwise_cons.mp hs).1
      have hm : m < t.length := by simpa using hj
      have hmem : t.getD m 0 ∈ t := by
        rw [List.getD_eq_getElem t 0 hm]
        exact List.getElem_mem hm
      exact le_of_lt (hx _ hmem)

/-- When the probe raises on index 0 and answers `false` on every later
index, the loop halves `hi` down to 1 with `lo` pinned at 0 and then
probes index 0, raising. -/
theorem bisectLoopE_err (q : Cell → Except PyErr Bool) (a : List Cell) (e : PyErr)
    (h0 : q (a.getD 0 (.time 0)) = .error e)
    (hrest : ∀ i, 1 ≤ i → i < a.length → q (a.getD i (.time 0)) = .ok false) :
    ∀ (n hi : Nat), hi ≤ n → 1 ≤ hi → hi ≤ a.length →
      bisectLoopE q a 0 hi = .error e := by
  intro n
  induction n with
  | zero =>
    intro hi hfuel h1 _
    omega
  | succ m ih =>
    intro hi hfuel h1 hlen
    rw [bisectLoopE]
    rw [dif_pos (by omega : (0 : Nat) < hi)]
    simp only
    by_cases hone : hi = 1
    · subst hone
      rw [show ((0 + 1) / 2 : Nat) = 0 from rfl]
      rw [h0]
    · have hmid1 : 1 ≤ (0 + hi) / 2 := by omega
      have hmidlt : (0 + hi) / 2 < hi := by omega
      rw [hrest _ hmid1 (by omega)]
      exact ih _ (by omega) (by omega) (by omega)

/-- When the probe answers `i < cnt` on every index from 1 on and
`2 ≤ cnt`, the bracket `[lo, hi] ∋ cnt` never narrows onto index 0 and
the loop returns `cnt`. -/
theorem bisectLoopE_eq_cnt (q : Cell → Except PyErr Bool) (a : List Cell) (cnt : Nat)
    (hcnt2 : 2 ≤ cnt)
    (hiff : ∀ i, 1 ≤ i → i < a.length → q (a.getD i (.time 0)) = .ok (decide (i < cnt))) :
    ∀ (n lo hi : Nat), hi - lo ≤ n → hi ≤ a.length → lo ≤ cnt → cnt ≤ hi →
      bisectLoopE q a lo hi = .ok cnt := by
  intro n
  induction n with
  | zero =>
    intro lo hi hfuel hlen hlo hhi
    rw [bisectLoopE]
    rw [dif_neg (by omega : ¬ lo < hi)]
    have : lo = cnt := by omega
    rw [this]
  | succ m ih =>
    intro lo hi hfuel hlen hlo hhi
    rw [bisectLoopE]
    by_cases h : lo < hi
    · rw [dif_pos h]
      simp only
      have hmid1 : 1 ≤ (lo + hi) / 2 := by omega
      have hmidlt : (lo + hi) / 2 < hi := by omega
      rw [hiff _ hmid1 (by omega)]
      rcases Nat.lt_or_ge ((lo + hi) / 2) cnt with hlt | hge
      · rw [show decide ((lo + hi) / 2 < cnt) = true from by simpa using hlt]
        exact ih ((lo + hi) / 2 + 1) hi (by omega) hlen (by omega) hhi
      · rw [show decide ((lo + hi) / 2 < cnt) = false from by simpa using hge]
        exact ih lo ((lo + hi) / 2) (by omega) (by omega) hlo (by omega)
    · rw [dif_neg h]
      have : lo = cnt := by omega
      rw [this]

/-- C1 counterexample: on the column `[A1Gregorian, 10, 20]` (data
rows strictly increasing) and the boundary window with
`start = stop = 10` — the first data timestamp — `bisect_left` halves
down onto the heading cell and the `str`-vs-`datetime` comparison
raises `TypeError`, so the selector errors (aborting the file at the
generic handler) instead of selecting the bracketing row without
error as the claim states. -/
theorem contactRange_heading_typeerror :
    contactRange (linkColumn "A1Gregorian" [10, 20]) 10 10 =
      .error PyErr.typeError := by
  have hrest : ∀ i, 1 ≤ i → i < (linkColumn "A1Gregorian" [(10 : Int), 20]).length →
      (fun c => cellLtTime c (10 : Int))
        ((linkColumn "A1Gregorian" [(10 : Int), 20]).getD i (Cell.time 0)) = .ok false := by
    intro i h1 h2
    rw [linkColumn_length] at h2
    simp only [List.length_cons, List.length_nil] at h2
    rw [linkColumn_getD _ _ i h1 (by simp only [List.length_cons, List.length_nil]; omega)]
    have h3 : i = 1 ∨ i = 2 := by omega
    rcases h3 with rfl | rfl <;> decide
  have hbl : bisect_left (linkColumn "A1Gregorian" [10, 20]) 10 = .error .typeError := by
    show bisectLoopE _ (linkColumn "A1Gregorian" [10, 20]) 0
      (linkColumn "A1Gregorian" [10, 20]).length = _
    exact bisectLoopE_err _ _ _ rfl hrest _ _ (le_refl _) (by decide) (le_refl _)
  simp only [contactRange, hbl]

/-- C1 as amended: the selector bisects the expanded column whose index
0 is the heading cell.  When the first data timestamp is strictly below
the window start, `[rowstart, rowstop)` contains exactly the sheet rows
(data row `i` sits at sheet index `i + 1`) whose timestamp lies in
`[start, stop]` — in particular a window with `start = stop` then
selects the bracketing rows, possibly zero, without error, and the
heading row itself is never selected.  But when `start` is at or below
the first data timestamp, or the table has no data rows, the bisect
probes the heading cell and raises `TypeError`, which the generic
per-file handler catches — the whole file is skipped. -/
theorem contactRange_heading_selects (hstr : String) (ts : List Int)
    (hs : ts.Pairwise (· < ·)) (start stop : Int) (hws : start ≤ stop) :
    (ts = [] → contactRange (linkColumn hstr ts) start stop = .error .typeError) ∧
    (0 < ts.length → start ≤ ts.getD 0 0 →
      contactRange (linkColumn hstr ts) start stop = .error .typeError) ∧
    (0 < ts.length → ts.getD 0 0 < start →
      ∃ rowstart rowstop,
        contactRange (linkColumn hstr ts) start stop = .ok (rowstart, rowstop) ∧
        1 ≤ rowstart ∧
        ∀ i, i < ts.length →
          ((rowstart ≤ i + 1 ∧ i + 1 < rowstop) ↔
            (start ≤ ts.getD i 0 ∧ ts.getD i 0 ≤ stop))) := by
  have hle : ts.Pairwise (· ≤ ·) := hs.imp le_of_lt
  have hmonoL : ∀ u v : Int, u ≤ v → decide (v < start) = true → decide (u < start) = true := by
    intro u v huv hv; simp only [decide_eq_true_eq] at *; omega
  have hmonoR : ∀ u v : Int, u ≤ v → decide (v ≤ stop) = true → decide (u ≤ stop) = true := by
    intro u v huv hv; simp only [decide_eq_true_eq] at *; omega
  have hidxL := countP_index _ hmonoL ts hle
  have hidxR := countP_index _ hmonoR ts hle
  have h0L : (fun c => cellLtTime c start)
      ((linkColumn hstr ts).getD 0 (Cell.time 0)) = .error .typeError := rfl
  refine ⟨?_, ?_, ?_⟩
  · -- no data rows at all: the first probe is the heading cell
    intro hnil
    subst hnil
    have hrest : ∀ i, 1 ≤ i → i < (linkColumn hstr ([] : List Int)).length →
        (fun c => cellLtTime c start)
          ((linkColumn hstr ([] : List Int)).getD i (Cell.time 0)) = .ok false := by
      intro i h1 h2
      rw [linkColumn_length] at h2
      simp only [List.length_nil] at h2
      exact absurd h1 (by omega)
    have hbl : bisect_left (linkColumn hstr []) start = .error .typeError := by
      show bisectLoopE _ (linkColumn hstr []) 0 (linkColumn hstr []).length = _
      exact bisectLoopE_err _ _ _ h0L hrest _ _ (le_refl _) (by simp [linkColumn]) (le_refl _)
    simp only [contactRange, hbl]
  · -- start at or below the first data timestamp: TypeError
    intro h0 ht1
    have hrest : ∀ i, 1 ≤ i → i < (linkColumn hstr ts).length →
        (fun c => cellLtTime c start)
          ((linkColumn hstr ts).getD i (Cell.time 0)) = .ok false := by
      intro i h1 h2
      rw [linkColumn_length] at h2
      rw [linkColumn_getD _ _ i h1 (by omega)]
      have hhead := pairwise_head_le ts hs (i - 1) (by omega)
      have hnlt : ¬ (ts.getD (i - 1) 0 < start) := by omega
      show Except.ok (decide (ts.getD (i - 1) 0 < start)) = Except.ok false
      exact congrArg Except.ok (decide_eq_false hnlt)
    have hbl : bisect_left (linkColumn hstr ts) start = .error .typeError := by
      show bisectLoopE _ (linkColumn hstr ts) 0 (linkColumn hstr ts).length = _
      exact bisectLoopE_err _ _ _ h0L hrest _ _ (le_refl _)
        (by rw [linkColumn_length]; omega) (le_refl _)
    simp only [contactRange, hbl]
  · -- first data timestamp strictly below start: exact selection
    intro h0 ht1
    have hcl1 : 0 < ts.countP fun t => decide (t < start) :=
      (hidxL 0 h0).mpr (by simpa using ht1)
    have hcr1 : 0 < ts.countP fun t => decide (t ≤ stop) :=
      (hidxR 0 h0).mpr (by simp only [decide_eq_true_eq]; omega)
    have hcleL : (ts.countP fun t => decide (t < start)) ≤ ts.length :=
      List.countP_le_length _
    have hcleR : (ts.countP fun t => decide (t ≤ stop)) ≤ ts.length :=
      List.countP_le_length _
    have hiffL : ∀ i, 1 ≤ i → i < (linkColumn hstr ts).length →
        (fun c => cellLtTime c start) ((linkColumn hstr ts).getD i (Cell.time 0)) =
          .ok (decide (i < (ts.countP fun t => decide (t < start)) + 1)) := by
      intro i h1 h2
      rw [linkColumn_length] at h2
      rw [linkColumn_getD _ _ i h1 (by omega)]
      show Except.ok (decide (ts.getD (i - 1) 0 < start)) = _
      have hx := hidxL (i - 1) (by omega)
      congr 1
      rw [decide_eq_decide]
      constructor
      · intro hlt
        have : i - 1 < ts.countP fun t => decide (t < start) :=
          hx.mpr (by simpa using hlt)
        omega
      · intro hcnt
        have : i - 1 < ts.countP fun t => decide (t < start) := by omega
        simpa using hx.mp this
    have hiffR : ∀ i, 1 ≤ i → i < (linkColumn hstr ts).length →
        (fun c =>
          match timeLtCell stop c with
          | Except.error e => Except.error e
          | Except.ok b => Except.ok (!b)) ((linkColumn hstr ts).getD i (Cell.time 0)) =
          .ok (decide (i < (ts.countP fun t => decide (t ≤ stop)) + 1)) := by
      intro i h1 h2
      rw [linkColumn_length] at h2
      rw [linkColumn_getD _ _ i h1 (by omega)]
      show Except.ok (!(decide (stop < ts.getD (i - 1) 0))) = _
      have hx := hidxR (i - 1) (by omega)
      have hnotle : (!(decide (stop < ts.getD (i - 1) 0))) =
          decide (ts.getD (i - 1) 0 ≤ stop) := by
        rw [← decide_not, decide_eq_decide]
        omega
      rw [hnotle]
      congr 1
      rw [decide_eq_decide]
      constructor
      · intro hlt
        have : i - 1 < ts.countP fun t => decide (t ≤ stop) :=
          hx.mpr (by simpa using hlt)
        omega
      · intro hcnt
        have : i - 1 < ts.countP fun t => decide (t ≤ stop) := by omega
        simpa using hx.mp this
    have hbl : bisect_left (linkColumn hstr ts) start =
        .ok ((ts.countP fun t => decide (t < start)) + 1) := by
      show bisectLoopE _ (linkColumn hstr ts) 0 (linkColumn hstr ts).length = _
      exact bisectLoopE_eq_cnt _ _ _ (by omega) hiffL (linkColumn hstr ts).length 0
        (linkColumn hstr ts).length (by omega) (le_refl _)
        (by omega) (by rw [linkColumn_length]; omega)
    have hbr : bisect_right (linkColumn hstr ts) stop =
        .ok ((ts.countP fun t => decide (t ≤ stop)) + 1) := by
      show bisectLoopE _ (linkColumn hstr ts) 0 (linkColumn hstr ts).length = _
      exact bisectLoopE_eq_cnt _ _ _ (by omega) hiffR (linkColumn hstr ts).length 0
        (linkColumn hstr ts).length (by omega) (le_refl _)
        (by omega) (by rw [linkColumn_length]; omega)
    refine ⟨(ts.countP fun t => decide (t < start)) + 1,
      (ts.countP fun t => decide (t ≤ stop)) + 1, ?_, by omega, ?_⟩
    · simp only [contactRange, hbl, hbr]
    · intro i hilen
      have hxL := hidxL i hilen
      have hxR := hidxR i hilen
      constructor
      · rintro ⟨hio, hihi⟩
        constructor
        · by_contra hc
          have hlt : ts.getD i 0 < start := by omega
          have : i < ts.countP fun t => decide (t < start) :=
            hxL.mpr (by simpa using hlt)
          omega
        · have : i < ts.countP fun t => decide (t ≤ stop) := by omega
          simpa using hxR.mp this
      · rintro ⟨hge, hle2⟩
        constructor
        · by_contra hc
          have : i < ts.countP fun t => decide (t < start) := by omega
          have := hxL.mp this
          simp only [decide_eq_true_eq] at this
          omega
        · have : i < ts.countP fun t => decide (t ≤ stop) :=
            hxR.mpr (by simpa using hle2)
          omega

/-- Witness for the amended C1 on the column `[A1Gregorian, 0, 10, 20]`
with the boundary window `start = stop = 10` strictly above the first
data timestamp 0: the hypotheses (strictly increasing data rows,
`start ≤ stop`) hold and all three conjuncts are instantiated. -/
theorem contactRange_heading_selects_witness :
    (([(0 : Int), 10, 20].Pairwise (· < ·)) ∧ (10 : Int) ≤ 10) ∧
    (([(0 : Int), 10, 20] = [] →
      contactRange (linkColumn "A1Gregorian" [(0 : Int), 10, 20]) 10 10 =
        .error .typeError) ∧
    (0 < [(0 : Int), 10, 20].length → (10 : Int) ≤ [(0 : Int), 10, 20].getD 0 0 →
      contactRange (linkColumn "A1Gregorian" [(0 : Int), 10, 20]) 10 10 =
        .error .typeError) ∧
    (0 < [(0 : Int), 10, 20].length → [(0 : Int), 10, 20].getD 0 0 < 10 →
      ∃ rowstart rowstop,
        contactRange (linkColumn "A1Gregorian" [(0 : Int), 10, 20]) 10 10 =
          .ok (rowstart, rowstop) ∧
        1 ≤ rowstart ∧
        ∀ i, i < [(0 : Int), 10, 20].length →
          ((rowstart ≤ i + 1 ∧ i + 1 < rowstop) ↔
            ((10 : Int) ≤ [(0 : Int), 10, 20].getD i 0 ∧
              [(0 : Int), 10, 20].getD i 0 ≤ 10)))) :=
  ⟨⟨by decide, by decide⟩,
    contactRange_heading_selects "A1Gregorian" [(0 : Int), 10, 20]
      (by decide) 10 10 (by decide)⟩

/-! ## Derived formula fields (C2)

`CContactReports.extend` (ContactReports.py lines 376-383) appends three
Excel formula strings to each extracted Link Report row, built with
`'...{0}...'.format(formrow)` where `formrow` is the 1-based Excel row.
`CLinkBudgets.formulas` (LinkBudgets.py lines 88-95) emits a second,
historically later variant of the same three fields. -/

/-- Embeds ContactReports.py line 378:
`'=SQRT(E{0}^2+F{0}^2+G{0}^2)'.format(formrow)` — the slant-range field. -/
def slantRangeFormula (formrow : Nat) : String :=
  "=SQRT(E" ++ toString formrow ++ "^2+F" ++ toString formrow ++
    "^2+G" ++ toString formrow ++ "^2)"

/-- Embeds ContactReports.py line 380:
`'=DEGREES(ATAN(F{0}/E{0}))'.format(formrow)` — the azimuth field. -/
def azimuthFormula (formrow : Nat) : String :=
  "=DEGREES(ATAN(F" ++ toString formrow ++ "/E" ++ toString formrow ++ "))"

/-- Embeds ContactReports.py line 382:
`'=DEGREES(ATAN(G{0}/(SQRT(E{0}^2+F{0}^2))))'.format(formrow)` — the
elevation field. -/
def elevationFormula (formrow : Nat) : String :=
  "=DEGREES(ATAN(G" ++ toString formrow ++ "/(SQRT(E" ++ toString formrow ++
    "^2+F" ++ toString formrow ++ "^2))))"

/-- Embeds ContactReports.py lines 372-383: one extracted row `data` is
extended by the three `data.append(...)` calls with the slant range,
azimuth and elevation formula strings for Excel row `formrow`. -/
def extendRowData (data : List String) (formrow : Nat) : List String :=
  data ++ [slantRangeFormula formrow, azimuthFormula formrow, elevationFormula formrow]

/-- Embeds LinkBudgets.py line 88:
`r'= SQRT($E{0}^2 + $F{0}^2 + $G{0}^2)'.format(formrow)`. -/
def linkBudgetSlantFormula (formrow : Nat) : String :=
  "= SQRT($E" ++ toString formrow ++ "^2 + $F" ++ toString formrow ++
    "^2 + $G" ++ toString formrow ++ "^2)"

/-- Embeds LinkBudgets.py line 91:
`r'=DEGREES(ATAN2(E{0},F{0}))'.format(formrow)`. -/
def linkBudgetAzimuthFormula (formrow : Nat) : String :=
  "=DEGREES(ATAN2(E" ++ toString formrow ++ ",F" ++ toString formrow ++ "))"

/-- Embeds LinkBudgets.py line 94:
`r'=DEGREES(ATAN2(SQRT(E{0}^2+F{0}^2),D{0}))'.format(formrow)` — note the
second `ATAN2` argument is cell `D{0}`, not `G{0}`. -/
def linkBudgetElevationFormula (formrow : Nat) : String :=
  "=DEGREES(ATAN2(SQRT(E" ++ toString formrow ++ "^2+F" ++ toString formrow ++
    "^2),D" ++ toString formrow ++ "))"

/-- Embeds LinkBudgets.py lines 73-95: the first three `(formula, format)`
entries of `CLinkBudgets.formulas(writerow, aoi)`; `formrow = writerow + 1`
(Excel rows are 1-based). -/
def linkBudgetGeometryFormulas (writerow : Nat) : List (String × Nat) :=
  [(linkBudgetSlantFormula (writerow + 1), 3),
   (linkBudgetAzimuthFormula (writerow + 1), 3),
   (linkBudgetElevationFormula (writerow + 1), 3)]

/-- Modelled from the spec: the claimed quadrant-correct azimuth field,
`atan2(x, y)` in degrees, as an Excel formula over the X/Y cells `E`,`F`
in the spec's argument order. -/
def specAzimuthFormula (formrow : Nat) : String :=
  "=DEGREES(ATAN2(E" ++ toString formrow ++ ",F" ++ toString formrow ++ "))"

/-- Modelled from the spec: the claimed quadrant-correct elevation field,
`atan2(sqrt(x²+y²), z)` in degrees over the X/Y/Z cells `E`,`F`,`G`. -/
def specElevationFormula (formrow : Nat) : String :=
  "=DEGREES(ATAN2(SQRT(E" ++ toString formrow ++ "^2+F" ++ toString formrow ++
    "^2),G" ++ toString formrow ++ "))"

/-- `isPrefixOfB pat cs`: `pat` is a prefix of `cs` (character lists). -/
def isPrefixOfB : List Char → List Char → Bool
  | [], _ => true
  | _ :: _, [] => false
  | p :: ps, c :: cs => p == c && isPrefixOfB ps cs

/-- `containsSub cs pat`: `pat` occurs as a contiguous substring of `cs`. -/
def containsSub (cs pat : List Char) : Bool :=
  isPrefixOfB pat cs ||
    (match cs with
     | [] => false
     | _ :: t => containsSub t pat)

/-- `strContains s pat` decides whether `pat` occurs as a substring of
`s` (Python `re.search` with a literal pattern). -/
def strContains (s pat : String) : Bool :=
  containsSub s.data pat.data

/-- C2 counterexample: at Excel row 2, the three fields
`CContactReports.extend` actually appends are not the claimed
quadrant-correct forms: the appended azimuth is the plain-`ATAN` field
(no `ATAN2` occurs in it), unlike the `ATAN2` azimuth of
`CLinkBudgets.formulas`. -/
theorem extendRowData_not_atan2 :
    extendRowData [] 2 ≠
        [slantRangeFormula 2, specAzimuthFormula 2, specElevationFormula 2] ∧
      strContains (azimuthFormula 2) "ATAN2" = false ∧
      strContains (elevationFormula 2) "ATAN2" = false ∧
      strContains (linkBudgetAzimuthFormula 2) "ATAN2" = true := by
  decide

/-- C2 as amended: each extracted row is extended, in place and in order,
by exactly three fields — the slant-range, azimuth and elevation formula
strings of ContactReports.py, which use plain `ATAN` (no quadrant
correction); the quadrant-correct `ATAN2` azimuth appears only in
`CLinkBudgets.formulas`, whose elevation formula references cell `D`,
not the Z cell `G` the spec names. -/
theorem extendRowData_amended (data : List String) (formrow : Nat) :
    (extendRowData data formrow).take data.length = data ∧
      (extendRowData data formrow).drop data.length =
        [slantRangeFormula formrow, azimuthFormula formrow, elevationFormula formrow] ∧
      strContains (azimuthFormula 2) "ATAN(" = true ∧
      strContains (azimuthFormula 2) "ATAN2" = false ∧
      linkBudgetAzimuthFormula 2 = specAzimuthFormula 2 ∧
      strContains (linkBudgetElevationFormula 2) ",D2)" = true ∧
      linkBudgetElevationFormula 2 ≠ specElevationFormula 2 ∧
      (linkBudgetGeometryFormulas 1).map Prod.fst =
        [linkBudgetSlantFormula 2, linkBudgetAzimuthFormula 2, linkBudgetElevationFormula 2] := by
  refine ⟨?_, ?_, by decide, by decide, by decide, by decide, by decide, by decide⟩
  · simp [extendRowData]
  · simp [extendRowData]

/-! ## Tabular Reader `lines_from_csv` (C3)

reduce_report.py lines 42-69.  The loop is

    for r, row in enumerate(lines):
        r = regesp.sub('', r)
        r = regecr.sub('', r)
        rlist = r.split(',')
        data = {row, rlist}
    return data

For a non-empty file the first iteration calls `regesp.sub('', r)` with
`r` the *integer* row index from `enumerate`; `re.sub` raises
`TypeError: expected string or bytes-like object`, the function's
`except Exception` handler logs and returns `None`.  (Even with `r` and
`row` swapped, `data = {row, rlist}` builds a set containing a list,
which is unhashable.)  For an empty file the loop body never runs and
the initial `data = dict()` is returned. -/

/-- Embeds `lines_from_csv` of reduce_report.py lines 42-69: `none` is
Python's `None` returned by the exception handler; `some m` is a
returned row dictionary. -/
def lines_from_csv (lines : List String) : Option (List (Nat × List String)) :=
  match lines with
  | [] => some []
  | _ :: _ => none

/-- Split a character list on a separator character (Python
`str.split(',')`: `n` separators yield `n + 1` fields). -/
def splitOnChar (sep : Char) : List Char → List (List Char)
  | [] => [[]]
  | x :: t =>
    let r := splitOnChar sep t
    if x == sep then [] :: r
    else
      match r with
      | [] => [[x]]
      | h :: t' => (x :: h) :: t'

/-- Modelled from the spec: the Tabular Reader contract of §4.2 — an
ordered mapping from zero-based row number to the row's comma-split
fields, with whitespace and the line terminator removed from every
field (the intended `regesp.sub`/`regecr.sub` then `split(',')`). -/
def lines_from_csv_spec (lines : List String) : List (Nat × List String) :=
  lines.enum.map fun p =>
    (p.1, (splitOnChar ','
        (p.2.data.filter fun c => !(c == ' ' || c == '\n'))).map String.mk)

/-- C3: the code contradicts the Tabular Reader contract (and its own
docstring, "return a dictionary with row as key"): on any non-empty
input, here the one-line file `"234, 567"`, `lines_from_csv` returns
`None` where the contract requires `{0: ["234", "567"]}`; only the
empty-file clause of the claim holds. -/
theorem lines_from_csv_code_bug :
    lines_from_csv ["234, 567"] = none ∧
      lines_from_csv_spec ["234, 567"] = [(0, ["234", "567"])] ∧
      lines_from_csv [] = some [] ∧ lines_from_csv_spec [] = [] := by
  refine ⟨rfl, ?_, rfl, rfl⟩
  decide

/-! ## The visibility-report classifier (C4, C5, C6, C8)

`CContactReports.extend` (ContactReports.py lines 88-96 and 157-278)
classifies a SIGHT (Contact Locator) report field by field.  We embed
the classification loop as a step function over an explicit state.
Python list/dict objects that matter for aliasing (the `times`
accumulator and the deep-copied lists committed into `startstop`) are
modelled by an explicit heap of lists addressed by `Nat` references, so
that `cp.deepcopy` (fresh allocation) is distinguishable from sharing.
The xlsxwriter workbook/worksheet side effects carry no classification
state and are not modelled. -/

/-- A start/stop/duration triple appended to the `times` accumulator
(ContactReports.py line 263).  Timestamps are the order-preserving
encoding produced by `parseGmatTime`. -/
structure VisTriple where
  start : Nat
  stop : Nat
  duration : String
deriving Repr, DecidableEq

/-- Embeds `regern.sub('', data)` (line 167) with `regern = '[\r\n]'`. -/
def stripCRLF (cs : List Char) : List Char :=
  cs.filter fun c => !(c == '\r' || c == '\n')

/-- Embeds `regetarget.match(data)` with `regetarget = 'Target:[ ]*'`
(line 88): on a match, returns `data[mtarg.span()[1]:]`, the remainder
after the prefix and any run of spaces. -/
def matchTargetRem (cs : List Char) : Option (List Char) :=
  if isPrefixOfB "Target:".data cs then
    some ((cs.drop 7).dropWhile (· == ' '))
  else none

/-- Embeds `regeobsrvr.match(data)` with `regeobsrvr = 'Observer:[ ]*'`
(line 89): on a match, the remainder after the prefix and spaces. -/
def matchObserverRem (cs : List Char) : Option (List Char) :=
  if isPrefixOfB "Observer:".data cs then
    some ((cs.drop 9).dropWhile (· == ' '))
  else none

/-- Embeds `regesat.search(...)` with `regesat = '[sS]at'` (line 93): the
index of the leftmost occurrence of `Sat` or `sat`; the match spans
three characters. -/
def findSatIdx : List Char → Option Nat
  | [] => none
  | c :: t =>
    if isPrefixOfB "Sat".data (c :: t) || isPrefixOfB "sat".data (c :: t) then some 0
    else (findSatIdx t).map (· + 1)

/-- Embeds `regekey2.search(obs)` with `regekey2 = '[A-Z][A-Za-z]+_'`
(line 94), returning the end position of the leftmost match.  Since `_`
is not in `[A-Za-z]`, the greedy letter run cannot backtrack onto a
match, so a match starting at an upper-case letter requires the maximal
letter run after it to be non-empty and followed by `_`. -/
def key2MatchEnd : List Char → Option Nat
  | [] => none
  | c :: t =>
    let run := (t.takeWhile (·.isAlpha)).length
    if c.isUpper && decide (1 ≤ run) && ((t.drop run).headD ' ' == '_') then
      some (1 + run + 1)
    else (key2MatchEnd t).map (· + 1)

/-- Case-insensitive substring test: embeds
`re.compile(satinfn, re.IGNORECASE).search(keycheck)` (line 196) for the
literal pattern `satinfn`. -/
def ciContains (s pat : List Char) : Bool :=
  containsSub (s.map Char.toLower) (pat.map Char.toLower)

/-- Digits-only string to `Nat` (`int`-like field of `strptime`). -/
def digitsToNat : List Char → Option Nat
  | [] => none
  | cs =>
    if cs.all Char.isDigit then
      some (cs.foldl (fun a c => a * 10 + (c.toNat - 48)) 0)
    else none

/-- Month-name abbreviation (`%b`) to month number. -/
def monthNum (cs : List Char) : Option Nat :=
  if cs == "Jan".data then some 1 else if cs == "Feb".data then some 2
  else if cs == "Mar".data then some 3 else if cs == "Apr".data then some 4
  else if cs == "May".data then some 5 else if cs == "Jun".data then some 6
  else if cs == "Jul".data then some 7 else if cs == "Aug".data then some 8
  else if cs == "Sep".data then some 9 else if cs == "Oct".data then some 10
  else if cs == "Nov".data then some 11 else if cs == "Dec".data then some 12
  else none

/-- Modelled from the spec: `rr.regetime` and `rr.dtdict['GMAT1'][3]`
live in the full `reduce_report` module, which is absent from `src/`
(only its callers are present).  §6 fixes the Link/SIGHT timestamp
format as `d mmm yyyy hh:mm:ss.fff`; a field matches the timestamp
pattern exactly when it parses in that format.  The returned encoding
`((((((y*12+(m-1))*31+(d-1))*24+h)*60+mi)*60+s)*1000+ms` is strictly
monotone in chronological order, which is all the classifier compares. -/
def parseGmatTime (s : String) : Option Nat :=
  match splitOnChar ' ' s.data with
  | [ds, ms, ys, ts] =>
    match splitOnChar ':' ts with
    | [hs, mins, secf] =>
      match splitOnChar '.' secf with
      | [ss, fs] =>
        match digitsToNat ds, monthNum ms, digitsToNat ys,
            digitsToNat hs, digitsToNat mins, digitsToNat ss, digitsToNat fs with
        | some d, some mo, some y, some h, some mi, some sec, some msec =>
          if 1 ≤ d && d ≤ 31 && h < 24 && mi < 60 && sec < 60 && fs.length == 3 then
            some ((((((y * 12 + (mo - 1)) * 31 + (d - 1)) * 24 + h) * 60 + mi) * 60 + sec)
              * 1000 + msec)
          else none
        | _, _, _, _, _, _, _ => none
      | _ => none
    | _ => none
  | _ => none

/-- The classification state of the loop at ContactReports.py lines
157-278.  `heap` is the store of Python list objects holding visibility
triples; `timesRef` is the reference held by the `times` local (line
158); `startstop` maps compound keys to references of the deep-copied
committed lists (line 270).  `key1`/`key` mirror the loop-carried
locals (`Option` models a possibly unbound Python local). -/
structure ClsState where
  key1 : Option String
  key : Option String
  colutc : List Nat
  starttime : Option Nat
  stoptime : Option Nat
  contact : Bool
  heap : List (List VisTriple)
  timesRef : Nat
  startstop : List (String × Nat)
  aoikeys : List String
deriving Repr, DecidableEq

/-- The state before the loop (lines 157-161): empty accumulators, the
`times` list freshly allocated at reference 0, `contact = False`. -/
def initState : ClsState :=
  { key1 := none, key := none, colutc := [], starttime := none, stoptime := none,
    contact := false, heap := [[]], timesRef := 0, startstop := [], aoikeys := [] }

/-- Python `dict.update` on an insertion-ordered association list:
replace the value of an existing key in place, else append. -/
def updateAssoc (m : List (String × Nat)) (k : String) (v : Nat) : List (String × Nat) :=
  match m with
  | [] => [(k, v)]
  | (k', v') :: t => if k' == k then (k, v) :: t else (k', v') :: updateAssoc t k v

/-- Embeds the Target branch, ContactReports.py lines 169-200, entered
with `rem = data[mtarg.span()[1]:]`.  Reproduces, in order: the
filename check (`regesat.search` on the stem, line 175; `ValueError`
at 179 when absent), the `match.span()` dereference on an unmatched
search of `key1` (an `AttributeError` in Python), the `keycheck`
normalisation of lines 184-194 (`keycheck` stays `None` when the
character after the satellite prefix is not numeric, making line 197's
`search(None)` a `TypeError`; the final `else` of line 192 is
unreachable), and the case-insensitive cross-check raising `ValueError`
at line 200 on mismatch.

`keycheckOf` is the `keycheck` normalisation of lines 181-194 for a
`regesat` match ending at `j + 3`: no trailing character means an
implied satellite number `1`; a trailing numeric character keeps `key1`;
otherwise `keycheck` stays `None`. -/
def keycheckOf (rem : List Char) (j : Nat) : Option (List Char) :=
  if j + 3 = rem.length then some (rem ++ ['1'])
  else if j + 3 < rem.length then
    (if (rem.getD (j + 3) ' ').isDigit then some rem else none)
  else none

def targetBranch (xlstem : String) (st : ClsState) (rem : List Char) :
    Except PyErr ClsState :=
  match findSatIdx xlstem.data with
  | none => .error (.valueError ("No Satellite number in filename " ++ xlstem ++ "."))
  | some i =>
    match findSatIdx rem with
    | none => .error .attributeError
    | some j =>
      match keycheckOf rem j with
      | none => .error .typeError
      | some kc =>
        if ciContains kc (xlstem.data.drop i) then
          .ok { st with key1 := some (String.mk rem) }
        else
          .error (.valueError ("Satellite number in filename " ++ xlstem ++
            " does not match data from file."))

/-- Embeds the `Number of events` branch, lines 267-273: on a prefix
match, if the accumulator is non-empty, `cp.deepcopy({key: times})` is
merged into `startstop` (a fresh list object — a fresh heap reference —
holding the current accumulator contents) and the accumulator is
cleared; the field is consumed either way. -/
def numEventsBranch (st : ClsState) (data : List Char) : Except PyErr ClsState :=
  if isPrefixOfB "Number of events".data data then
    if 0 < (st.heap.getD st.timesRef []).length then
      match st.key with
      | none => .error .nameError
      | some k =>
        .ok { st with
          startstop := updateAssoc st.startstop k st.heap.length,
          heap := (st.heap ++ [st.heap.getD st.timesRef []]).set st.timesRef [] }
    else .ok st
  else .ok st

/-- Embeds the contact kludge, lines 259-265: while `contact` is set, the
field at column `colutc[2]` is the duration; `[starttime, stoptime,
duration]` is appended to the `times` list (mutating the heap cell at
`timesRef`) and `contact` cleared.  Reading `colutc[2]` of a shorter
list is an `IndexError`; reading an unbound `starttime`/`stoptime`
local is a `NameError`. -/
def contactBranch (st : ClsState) (col : Nat) (data : List Char) : Except PyErr ClsState :=
  if st.contact then
    match st.colutc.get? 2 with
    | none => .error .indexError
    | some c2 =>
      if col = c2 then
        match st.starttime, st.stoptime with
        | some s, some p =>
          .ok { st with
            contact := false,
            heap := st.heap.set st.timesRef
              ((st.heap.getD st.timesRef []) ++ [⟨s, p, String.mk data⟩]) }
        | _, _ => .error .nameError
      else numEventsBranch st data
  else numEventsBranch st data

/-- Embeds the time-data branch, lines 240-257: a field matching the
timestamp pattern is parsed and fills the start or stop slot according
to its column; any other column raises `ValueError` (line 256);
`colutc[0]`/`colutc[1]` on a short list is an `IndexError`. -/
def timeBranch (st : ClsState) (col : Nat) (data : List Char) : Except PyErr ClsState :=
  match parseGmatTime (String.mk data) with
  | some t =>
    match st.colutc.get? 0 with
    | none => .error .indexError
    | some c0 =>
      if col = c0 then .ok { st with starttime := some t }
      else
        match st.colutc.get? 1 with
        | none => .error .indexError
        | some c1 =>
          if col = c1 then .ok { st with stoptime := some t, contact := true }
          else .error (.valueError "Unexpected time field found in data column.")
  | none => contactBranch st col data

/-- Embeds the `Duration` heading branch, lines 233-238: bound as
`colutc[2]` only when both time columns are already bound
(`len(colutc) == 2`); otherwise the field falls through. -/
def durationBranch (st : ClsState) (col : Nat) (data : List Char) : Except PyErr ClsState :=
  if containsSub data "Duration".data then
    if st.colutc.length = 2 then .ok { st with colutc := st.colutc ++ [col] }
    else timeBranch st col data
  else timeBranch st col data

/-- Embeds the `UTC` heading branch, lines 222-231: the first two fields
containing `UTC` bind `colutc[0]` and `colutc[1]`; with both bound the
field falls through to the `Duration` test. -/
def utcBranch (st : ClsState) (col : Nat) (data : List Char) : Except PyErr ClsState :=
  if containsSub data "UTC".data then
    if st.colutc.length = 0 then .ok { st with colutc := st.colutc ++ [col] }
    else if st.colutc.length = 1 then .ok { st with colutc := st.colutc ++ [col] }
    else durationBranch st col data
  else durationBranch st col data

/-- Embeds the Observer branch, lines 203-220: `regekey2` locates the
area-of-interest suffix (`ValueError` at line 219 when absent), a
worksheet is added (not modelled), and the compound key
`key1 + '@' + key2` is recorded; an unbound `key1` is a `NameError`. -/
def observerBranch (st : ClsState) (obs : List Char) : Except PyErr ClsState :=
  match key2MatchEnd obs with
  | none => .error (.valueError "Observer string does not contain key2 as expected.")
  | some e =>
    match st.key1 with
    | none => .error .nameError
    | some k1 =>
      let key := k1 ++ "@" ++ String.mk (obs.drop e)
      .ok { st with key := some key, aoikeys := st.aoikeys ++ [key] }

/-- Embeds one iteration of the field loop, lines 164-276: empty fields
are skipped; `\r\n` are stripped; then the pattern tests run in source
order.  The Target branch does not consume its field (no `continue` at
line 200), so a matching field continues into the later tests; the
Observer, UTC, Duration, time, contact and `Number of events` branches
consume theirs. -/
def classifyField (xlstem : String) (st : ClsState) (col : Nat) (data0 : String) :
    Except PyErr ClsState :=
  if data0.data.length = 0 then .ok st
  else
    let data := stripCRLF data0.data
    let afterTarget : Except PyErr ClsState :=
      match matchTargetRem data with
      | some rem => targetBranch xlstem st rem
      | none => .ok st
    match afterTarget with
    | .error e => .error e
    | .ok st1 =>
      match matchObserverRem data with
      | some obs => observerBranch st1 obs
      | none => utcBranch st1 col data

/-- Sequential classification of an enumerated field list. -/
def classifyFields (xlstem : String) (st : ClsState) :
    List (Nat × String) → Except PyErr ClsState
  | [] => .ok st
  | (c, d) :: t =>
    match classifyField xlstem st c d with
    | .error e => .error e
    | .ok st' => classifyFields xlstem st' t

/-- Embeds the row loop, lines 163-278: each row's fields are enumerated
(`for col, data in enumerate(r)`) and classified in order. -/
def classifyRows (xlstem : String) (st : ClsState) :
    List (List String) → Except PyErr ClsState
  | [] => .ok st
  | row :: rest =>
    match classifyFields xlstem st row.enum with
    | .error e => .error e
    | .ok st' => classifyRows xlstem st' rest

/-- Classification of a whole visibility report from the initial state;
`xlstem` is the stem of the output workbook name (the report filename
with the suffix replaced, line 98). -/
def classifyReport (xlstem : String) (rows : List (List String)) : Except PyErr ClsState :=
  classifyRows xlstem initState rows

/-- All fields of a report in processing order, with their column
numbers. -/
def allFields (rows : List (List String)) : List (Nat × String) :=
  (rows.map List.enum).flatten

/-- All triples held anywhere in the classification store: the live
accumulator plus every committed copy. -/
def producedTriples (st : ClsState) : List VisTriple :=
  st.heap.flatten

/-! ### Characterisation of the classifier's branches -/

theorem targetBranch_ok (xlstem : String) (st : ClsState) (rem : List Char)
    (st' : ClsState) (h : targetBranch xlstem st rem = .ok st') :
    st' = { st with key1 := some (String.mk rem) } := by
  unfold targetBranch at h
  split at h
  · exact Except.noConfusion h
  · split at h
    · exact Except.noConfusion h
    · split at h
      · exact Except.noConfusion h
      · split at h
        · exact (Except.ok.inj h).symm
        · exact Except.noConfusion h

theorem observerBranch_state (st : ClsState) (obs : List Char) (st' : ClsState)
    (h : observerBranch st obs = .ok st') :
    ∃ k, st' = { st with key := some k, aoikeys := st.aoikeys ++ [k] } := by
  unfold observerBranch at h
  split at h
  · exact Except.noConfusion h
  · split at h
    · exact Except.noConfusion h
    · exact ⟨_, (Except.ok.inj h).symm⟩

theorem numEventsBranch_state (st : ClsState) (data : List Char) (st' : ClsState)
    (h : numEventsBranch st data = .ok st') :
    st' = st ∨
      ∃ k, st.key = some k ∧ 0 < (st.heap.getD st.timesRef []).length ∧
        isPrefixOfB "Number of events".data data = true ∧
        st' = { st with
          startstop := updateAssoc st.startstop k st.heap.length,
          heap := (st.heap ++ [st.heap.getD st.timesRef []]).set st.timesRef [] } := by
  unfold numEventsBranch at h
  split at h
  · rename_i hpref
    split at h
    · rename_i hlen
      split at h
      · exact Except.noConfusion h
      · rename_i k hk
        exact Or.inr ⟨k, hk, hlen, hpref, (Except.ok.inj h).symm⟩
    · exact Or.inl (Except.ok.inj h).symm
  · exact Or.inl (Except.ok.inj h).symm

theorem contactBranch_state (st : ClsState) (col : Nat) (data : List Char)
    (st' : ClsState) (h : contactBranch st col data = .ok st') :
    (∃ s p, st.contact = true ∧ st.starttime = some s ∧ st.stoptime = some p ∧
      st' = { st with
        contact := false,
        heap := st.heap.set st.timesRef
          ((st.heap.getD st.timesRef []) ++ [⟨s, p, String.mk data⟩]) }) ∨
      numEventsBranch st data = .ok st' := by
  unfold contactBranch at h
  split at h
  · rename_i hcon
    split at h
    · exact Except.noConfusion h
    · split at h
      · split at h
        · rename_i s p hs hp
          exact Or.inl ⟨s, p, hcon, hs, hp, (Except.ok.inj h).symm⟩
        · exact Except.noConfusion h
      · exact Or.inr h
  · exact Or.inr h

theorem timeBranch_state (st : ClsState) (col : Nat) (data : List Char)
    (st' : ClsState) (h : timeBranch st col data = .ok st') :
    (∃ t, st' = { st with starttime := some t }) ∨
      (∃ t, st' = { st with stoptime := some t, contact := true }) ∨
      contactBranch st col data = .ok st' := by
  unfold timeBranch at h
  split at h
  · split at h
    · exact Except.noConfusion h
    · split at h
      · exact Or.inl ⟨_, (Except.ok.inj h).symm⟩
      · split at h
        · exact Except.noConfusion h
        · split at h
          · exact Or.inr (Or.inl ⟨_, (Except.ok.inj h).symm⟩)
          · exact Except.noConfusion h
  · exact Or.inr (Or.inr h)

theorem durationBranch_state (st : ClsState) (col : Nat) (data : List Char)
    (st' : ClsState) (h : durationBranch st col data = .ok st') :
    (containsSub data "Duration".data = true ∧ st.colutc.length = 2 ∧
      st' = { st with colutc := st.colutc ++ [col] }) ∨
      ((containsSub data "Duration".data = false ∨ st.colutc.length ≠ 2) ∧
        timeBranch st col data = .ok st') := by
  unfold durationBranch at h
  split at h
  · rename_i hdur
    split at h
    · rename_i hlen
      exact Or.inl ⟨by simpa using hdur, hlen, (Except.ok.inj h).symm⟩
    · rename_i hlen
      exact Or.inr ⟨Or.inr hlen, h⟩
  · rename_i hdur
    exact Or.inr ⟨Or.inl (by simpa using hdur), h⟩

theorem utcBranch_state (st : ClsState) (col : Nat) (data : List Char)
    (st' : ClsState) (h : utcBranch st col data = .ok st') :
    (containsSub data "UTC".data = true ∧ st.colutc.length < 2 ∧
      st' = { st with colutc := st.colutc ++ [col] }) ∨
      ((containsSub data "UTC".data = false ∨ 2 ≤ st.colutc.length) ∧
        durationBranch st col data = .ok st') := by
  unfold utcBranch at h
  split at h
  · rename_i hutc
    split at h
    · rename_i hlen
      exact Or.inl ⟨by simpa using hutc, by omega, (Except.ok.inj h).symm⟩
    · split at h
      · rename_i hlen0 hlen1
        exact Or.inl ⟨by simpa using hutc, by omega, (Except.ok.inj h).symm⟩
      · rename_i hlen0 hlen1
        exact Or.inr ⟨Or.inr (by omega), h⟩
  · rename_i hutc
    exact Or.inr ⟨Or.inl (by simpa using hutc), h⟩

/-- Decomposition of one classification step into the target stage and
the consuming stage that follows it. -/
theorem classifyField_decomp (xlstem : String) (st : ClsState) (col : Nat)
    (d : String) (st' : ClsState) (h : classifyField xlstem st col d = .ok st') :
    (d.data.length = 0 ∧ st' = st) ∨
      ∃ st1, (st1 = st ∨
          ∃ rem, matchTargetRem (stripCRLF d.data) = some rem ∧
            st1 = { st with key1 := some (String.mk rem) }) ∧
        ((∃ obs, matchObserverRem (stripCRLF d.data) = some obs ∧
            observerBranch st1 obs = .ok st') ∨
          (matchObserverRem (stripCRLF d.data) = none ∧
            utcBranch st1 col (stripCRLF d.data) = .ok st')) := by
  unfold classifyField at h
  split at h
  · rename_i hlen
    exact Or.inl ⟨hlen, by cases h; rfl⟩
  · rename_i hlen
    right
    simp only at h
    split at h
    · cases h
    · rename_i st1 hafter
      refine ⟨st1, ?_, ?_⟩
      · split at hafter
        · rename_i rem hrem
          exact Or.inr ⟨rem, hrem, targetBranch_ok _ _ _ _ hafter⟩
        · cases hafter
          exact Or.inl rfl
      · split at h
        · rename_i obs hobs
          exact Or.inl ⟨obs, hobs, h⟩
        · rename_i hobs
          exact Or.inr ⟨hobs, h⟩

/-! ### Heap frame: classification never rewrites a committed copy

`cp.deepcopy` at line 270 allocates a fresh list object for each commit;
the only heap cell the classifier ever mutates afterwards is the live
accumulator at `timesRef`. -/

/-- Cells other than the accumulator are preserved by a state
transition, and the heap only grows. -/
def HeapFrame (st st' : ClsState) : Prop :=
  st'.timesRef = st.timesRef ∧ st.heap.length ≤ st'.heap.length ∧
    ∀ j, j < st.heap.length → j ≠ st.timesRef → st'.heap[j]? = st.heap[j]?

theorem HeapFrame.refl (st : ClsState) : HeapFrame st st :=
  ⟨rfl, le_refl _, fun _ _ _ => rfl⟩

theorem HeapFrame.trans {st st' st'' : ClsState}
    (h1 : HeapFrame st st') (h2 : HeapFrame st' st'') : HeapFrame st st'' := by
  obtain ⟨t1, l1, p1⟩ := h1
  obtain ⟨t2, l2, p2⟩ := h2
  refine ⟨t2.trans t1, l1.trans l2, fun j hj hne => ?_⟩
  rw [p2 j (lt_of_lt_of_le hj l1) (by rw [t1]; exact hne), p1 j hj hne]

theorem HeapFrame.of_eq {st st' : ClsState}
    (hh : st'.heap = st.heap) (ht : st'.timesRef = st.timesRef) : HeapFrame st st' :=
  ⟨ht, by rw [hh], fun j _ _ => by rw [hh]⟩

theorem HeapFrame.set_timesRef (st : ClsState) (v : List VisTriple) :
    HeapFrame st { st with heap := st.heap.set st.timesRef v } := by
  refine ⟨rfl, by simp, fun j hj hne => ?_⟩
  simpa using List.getElem?_set_ne (Ne.symm hne)

theorem HeapFrame.commit (st : ClsState) (ss : List (String × Nat)) (v : List VisTriple) :
    HeapFrame st { st with
      startstop := ss,
      heap := (st.heap ++ [v]).set st.timesRef [] } := by
  refine ⟨rfl, by simp, fun j hj hne => ?_⟩
  show ((st.heap ++ [v]).set st.timesRef [])[j]? = st.heap[j]?
  rw [List.getElem?_set_ne (Ne.symm hne), List.getElem?_append_left hj]

theorem numEventsBranch_frame (st : ClsState) (data : List Char) (st' : ClsState)
    (h : numEventsBranch st data = .ok st') : HeapFrame st st' := by
  rcases numEventsBranch_state st data st' h with rfl | ⟨k, _, _, _, rfl⟩
  · exact HeapFrame.refl _
  · exact HeapFrame.commit st _ _

theorem contactBranch_frame (st : ClsState) (col : Nat) (data : List Char)
    (st' : ClsState) (h : contactBranch st col data = .ok st') : HeapFrame st st' := by
  rcases contactBranch_state st col data st' h with ⟨s, p, _, _, _, rfl⟩ | hne
  · exact HeapFrame.set_timesRef st _
  · exact numEventsBranch_frame st data st' hne

theorem timeBranch_frame (st : ClsState) (col : Nat) (data : List Char)
    (st' : ClsState) (h : timeBranch st col data = .ok st') : HeapFrame st st' := by
  rcases timeBranch_state st col data st' h with ⟨t, rfl⟩ | ⟨t, rfl⟩ | hc
  · exact HeapFrame.of_eq rfl rfl
  · exact HeapFrame.of_eq rfl rfl
  · exact contactBranch_frame st col data st' hc

theorem durationBranch_frame (st : ClsState) (col : Nat) (data : List Char)
    (st' : ClsState) (h : durationBranch st col data = .ok st') : HeapFrame st st' := by
  rcases durationBranch_state st col data st' h with ⟨_, _, rfl⟩ | ⟨_, ht⟩
  · exact HeapFrame.of_eq rfl rfl
  · exact timeBranch_frame st col data st' ht

theorem utcBranch_frame (st : ClsState) (col : Nat) (data : List Char)
    (st' : ClsState) (h : utcBranch st col data = .ok st') : HeapFrame st st' := by
  rcases utcBranch_state st col data st' h with ⟨_, _, rfl⟩ | ⟨_, hd⟩
  · exact HeapFrame.of_eq rfl rfl
  · exact durationBranch_frame st col data st' hd

theorem classifyField_frame (xlstem : String) (st : ClsState) (col : Nat)
    (d : String) (st' : ClsState) (h : classifyField xlstem st col d = .ok st') :
    HeapFrame st st' := by
  rcases classifyField_decomp xlstem st col d st' h with ⟨_, rfl⟩ | ⟨st1, hst1, hrest⟩
  · exact HeapFrame.refl _
  · have hf1 : HeapFrame st st1 := by
      rcases hst1 with rfl | ⟨rem, _, rfl⟩
      · exact HeapFrame.refl _
      · exact HeapFrame.of_eq rfl rfl
    refine hf1.trans ?_
    rcases hrest with ⟨obs, _, hob⟩ | ⟨_, hutc⟩
    · obtain ⟨k, rfl⟩ := observerBranch_state _ _ _ hob
      exact HeapFrame.of_eq rfl rfl
    · exact utcBranch_frame st1 col _ st' hutc

theorem classifyFields_frame (xlstem : String) :
    ∀ (fs : List (Nat × String)) (st st' : ClsState),
      classifyFields xlstem st fs = .ok st' → HeapFrame st st' := by
  intro fs
  induction fs with
  | nil =>
    intro st st' h
    cases h
    exact HeapFrame.refl _
  | cons p t ih =>
    intro st st' h
    unfold classifyFields at h
    split at h
    · exact Except.noConfusion h
    · rename_i st1 h1
      exact (classifyField_frame xlstem st p.1 p.2 st1 h1).trans (ih st1 st' h)

/-! ### Evolution of the bound time columns (`colutc`) -/

theorem numEventsBranch_colutc (st : ClsState) (data : List Char) (st' : ClsState)
    (h : numEventsBranch st data = .ok st') : st'.colutc = st.colutc := by
  rcases numEventsBranch_state st data st' h with rfl | ⟨k, _, _, _, rfl⟩ <;> rfl

theorem contactBranch_colutc (st : ClsState) (col : Nat) (data : List Char)
    (st' : ClsState) (h : contactBranch st col data = .ok st') : st'.colutc = st.colutc := by
  rcases contactBranch_state st col data st' h with ⟨s, p, _, _, _, rfl⟩ | hne
  · rfl
  · exact numEventsBranch_colutc st data st' hne

theorem timeBranch_colutc (st : ClsState) (col : Nat) (data : List Char)
    (st' : ClsState) (h : timeBranch st col data = .ok st') : st'.colutc = st.colutc := by
  rcases timeBranch_state st col data st' h with ⟨t, rfl⟩ | ⟨t, rfl⟩ | hc
  · rfl
  · rfl
  · exact contactBranch_colutc st col data st' hc

/-- How one classification step changes the bound columns: a field
containing `UTC` extends `colutc` while fewer than two columns are
bound; a field containing `Duration` (and not `UTC`) extends it exactly
when two are bound; every other successful step leaves it unchanged.
Hypotheses: a field consumed by the Observer branch contains neither
marker, and no field contains both markers. -/
theorem classifyField_colutc (xlstem : String) (st : ClsState) (col : Nat)
    (d : String) (st' : ClsState) (h : classifyField xlstem st col d = .ok st')
    (hobs : ∀ obs, matchObserverRem (stripCRLF d.data) = some obs →
      containsSub (stripCRLF d.data) "UTC".data = false ∧
      containsSub (stripCRLF d.data) "Duration".data = false)
    (hdu : ¬(containsSub (stripCRLF d.data) "UTC".data = true ∧
      containsSub (stripCRLF d.data) "Duration".data = true)) :
    (containsSub (stripCRLF d.data) "UTC".data = true ∧ st.colutc.length < 2 ∧
      st'.colutc = st.colutc ++ [col]) ∨
    (containsSub (stripCRLF d.data) "UTC".data = false ∧
      containsSub (stripCRLF d.data) "Duration".data = true ∧ st.colutc.length = 2 ∧
      st'.colutc = st.colutc ++ [col]) ∨
    (st'.colutc = st.colutc ∧
      ¬(containsSub (stripCRLF d.data) "UTC".data = true ∧ st.colutc.length < 2) ∧
      ¬(containsSub (stripCRLF d.data) "UTC".data = false ∧
        containsSub (stripCRLF d.data) "Duration".data = true ∧ st.colutc.length = 2)) := by
  rcases classifyField_decomp xlstem st col d st' h with ⟨hlen, rfl⟩ | ⟨st1, hst1, hrest⟩
  · refine Or.inr (Or.inr ⟨rfl, ?_, ?_⟩)
    · have : stripCRLF d.data = [] := by
        have : d.data = [] := List.length_eq_zero.mp hlen
        simp [stripCRLF, this]
      simp [this, containsSub, isPrefixOfB]
    · have : stripCRLF d.data = [] := by
        have : d.data = [] := List.length_eq_zero.mp hlen
        simp [stripCRLF, this]
      simp [this, containsSub, isPrefixOfB]
  · have hcol1 : st1.colutc = st.colutc := by
      rcases hst1 with rfl | ⟨rem, _, rfl⟩ <;> rfl
    have hlen1 : st1.colutc.length = st.colutc.length := by rw [hcol1]
    rcases hrest with ⟨obs, hob, hobk⟩ | ⟨_, hutc⟩
    · obtain ⟨hu, hd2⟩ := hobs obs hob
      obtain ⟨k, rfl⟩ := observerBranch_state _ _ _ hobk
      refine Or.inr (Or.inr ⟨hcol1, ?_, ?_⟩)
      · intro hc; rw [hu] at hc; exact Bool.noConfusion hc.1
      · intro hc; rw [hd2] at hc; exact Bool.noConfusion hc.2.1
    · rcases utcBranch_state st1 col _ st' hutc with ⟨hu, hl, hc⟩ | ⟨hor, hdur⟩
      · exact Or.inl ⟨hu, by omega, by rw [hc, hcol1]⟩
      · rcases durationBranch_state st1 col _ st' hdur with ⟨hd2, hl2, hc⟩ | ⟨hor2, ht⟩
        · have hu : containsSub (stripCRLF d.data) "UTC".data = false := by
            rcases hor with hu | hge
            · exact hu
            · by_contra hc2
              exact hdu ⟨by simpa using hc2, hd2⟩
          exact Or.inr (Or.inl ⟨hu, hd2, by omega, by rw [hc, hcol1]⟩)
        · have hcc : st'.colutc = st.colutc := by
            rw [timeBranch_colutc st1 col _ st' ht, hcol1]
          refine Or.inr (Or.inr ⟨hcc, ?_, ?_⟩)
          · rintro ⟨hu, hl⟩
            rcases hor with hu2 | hge
            · rw [hu] at hu2; exact Bool.noConfusion hu2
            · omega
          · rintro ⟨hu, hd2, hl2⟩
            rcases hor2 with hd3 | hne2
            · rw [hd2] at hd3; exact Bool.noConfusion hd3
            · exact hne2 (by omega)

/-! ### Sequential composition and flattening of the field loop -/

theorem classifyFields_append (xlstem : String) (l1 l2 : List (Nat × String)) :
    ∀ st : ClsState, classifyFields xlstem st (l1 ++ l2) =
      match classifyFields xlstem st l1 with
      | .ok st1 => classifyFields xlstem st1 l2
      | .error e => .error e := by
  induction l1 with
  | nil => intro st; rfl
  | cons p t ih =>
    intro st
    obtain ⟨c, d⟩ := p
    simp only [List.cons_append, classifyFields]
    cases hcf : classifyField xlstem st c d with
    | error e => rfl
    | ok st1 => exact ih st1

theorem classifyRows_eq_fields (xlstem : String) :
    ∀ (rows : List (List String)) (st : ClsState),
      classifyRows xlstem st rows = classifyFields xlstem st (allFields rows) := by
  intro rows
  induction rows with
  | nil => intro st; rfl
  | cons row rest ih =>
    intro st
    rw [show allFields (row :: rest) = row.enum ++ allFields rest from by
      simp [allFields]]
    rw [classifyFields_append]
    simp only [classifyRows]
    cases h : classifyFields xlstem st row.enum with
    | error e => rfl
    | ok st1 => exact ih st1

/-! ### C5: binding of the start/stop/duration columns -/

/-- The columns of the fields containing `UTC`, in field order (the
claim's start/stop-column candidates). -/
def utcColsOf (fields : List (Nat × String)) : List Nat :=
  fields.filterMap fun p =>
    if containsSub (stripCRLF (p.2).data) "UTC".data then some p.1 else none

/-- Invariant relating the bound columns `c` to the processed fields:
the first two bound columns are the first two `UTC` columns; fewer than
two bound columns means exactly the `UTC` columns seen so far; a third
bound column is the column of a `Duration` field seen after both time
columns were bound. -/
def ColutcInv (fields : List (Nat × String)) (c : List Nat) : Prop :=
  c.take 2 = (utcColsOf fields).take 2 ∧
  c.length ≤ 3 ∧
  (c.length < 2 → c = utcColsOf fields) ∧
  (c.length = 3 → 2 ≤ (utcColsOf fields).length ∧
    ∃ pre q post, fields = pre ++ q :: post ∧
      containsSub (stripCRLF (q.2).data) "Duration".data = true ∧
      c.getD 2 0 = q.1 ∧ 2 ≤ (utcColsOf pre).length)

theorem utcColsOf_append_one (fields : List (Nat × String)) (p : Nat × String) :
    utcColsOf (fields ++ [p]) = utcColsOf fields ++
      (if containsSub (stripCRLF (p.2).data) "UTC".data then [p.1] else []) := by
  simp only [utcColsOf, List.filterMap_append, List.filterMap_cons, List.filterMap_nil]
  split <;> simp_all

theorem ColutcInv_step (fields : List (Nat × String)) (c : List Nat)
    (p : Nat × String) (c' : List Nat) (hinv : ColutcInv fields c)
    (htr :
      (containsSub (stripCRLF (p.2).data) "UTC".data = true ∧ c.length < 2 ∧
        c' = c ++ [p.1]) ∨
      (containsSub (stripCRLF (p.2).data) "UTC".data = false ∧
        containsSub (stripCRLF (p.2).data) "Duration".data = true ∧ c.length = 2 ∧
        c' = c ++ [p.1]) ∨
      (c' = c ∧
        ¬(containsSub (stripCRLF (p.2).data) "UTC".data = true ∧ c.length < 2) ∧
        ¬(containsSub (stripCRLF (p.2).data) "UTC".data = false ∧
          containsSub (stripCRLF (p.2).data) "Duration".data = true ∧ c.length = 2))) :
    ColutcInv (fields ++ [p]) c' := by
  obtain ⟨htake2, hle3, hlt2, heq3⟩ := hinv
  have happ := utcColsOf_append_one fields p
  rcases htr with ⟨hu, hl, rfl⟩ | ⟨hu, hd2, hl, rfl⟩ | ⟨rfl, hneg1, hneg2⟩
  · -- a UTC field binds a new time column
    have hc : c = utcColsOf fields := hlt2 hl
    rw [hu, if_pos rfl] at happ
    refine ⟨?_, ?_, ?_, ?_⟩
    · rw [happ, hc]
    · simp only [List.length_append, List.length_cons, List.length_nil]; omega
    · intro _; rw [happ, hc]
    · intro h3
      simp only [List.length_append, List.length_cons, List.length_nil] at h3
      omega
  · -- a Duration field binds the third column
    have hspec2 : 2 ≤ (utcColsOf fields).length := by
      have h1 : (c.take 2).length = 2 := by
        rw [List.length_take]; omega
      rw [htake2, List.length_take] at h1
      omega
    rw [hu] at happ
    simp only [Bool.false_eq_true, if_false, List.append_nil] at happ
    obtain ⟨a, b, rfl⟩ := List.length_eq_two.mp hl
    refine ⟨?_, ?_, ?_, ?_⟩
    · rw [happ]
      simpa using htake2
    · simp
    · intro h2; simp at h2
    · intro _
      rw [happ]
      exact ⟨hspec2, fields, p, [], rfl, hd2, rfl, hspec2⟩
  · -- no binding: the invariant transports
    by_cases hu : containsSub (stripCRLF (p.2).data) "UTC".data = true
    · have hge : 2 ≤ c'.length := by
        rcases Nat.lt_or_ge c'.length 2 with hlt | hge
        · exact absurd ⟨hu, hlt⟩ hneg1
        · exact hge
      have hspec2 : 2 ≤ (utcColsOf fields).length := by
        have h1 : (c'.take 2).length = 2 := by rw [List.length_take]; omega
        rw [htake2, List.length_take] at h1
        omega
      rw [hu, if_pos rfl] at happ
      refine ⟨?_, hle3, ?_, ?_⟩
      · rw [happ, List.take_append_of_le_length hspec2, htake2]
      · intro h2; omega
      · intro h3
        obtain ⟨hsl, pre, q, post, hfe, hdq, hgd, hpl⟩ := heq3 h3
        refine ⟨by rw [happ]; simp; omega, pre, q, post ++ [p], ?_, hdq, hgd, hpl⟩
        rw [hfe]; simp
    · have hu' : containsSub (stripCRLF (p.2).data) "UTC".data = false := by
        simpa using hu
      rw [hu'] at happ
      simp only [Bool.false_eq_true, if_false, List.append_nil] at happ
      refine ⟨by rw [happ]; exact htake2, hle3, ?_, ?_⟩
      · intro h2; rw [happ]; exact hlt2 h2
      · intro h3
        obtain ⟨hsl, pre, q, post, hfe, hdq, hgd, hpl⟩ := heq3 h3
        exact ⟨by rw [happ]; exact hsl, pre, q, post ++ [p],
          by rw [hfe]; simp, hdq, hgd, hpl⟩

theorem classifyFields_colutcInv (xlstem : String) :
    ∀ (suffix : List (Nat × String)) (st st' : ClsState) (done : List (Nat × String)),
      classifyFields xlstem st suffix = .ok st' →
      (∀ p ∈ suffix, ∀ obs, matchObserverRem (stripCRLF (p.2).data) = some obs →
        containsSub (stripCRLF (p.2).data) "UTC".data = false ∧
        containsSub (stripCRLF (p.2).data) "Duration".data = false) →
      (∀ p ∈ suffix, ¬(containsSub (stripCRLF (p.2).data) "UTC".data = true ∧
        containsSub (stripCRLF (p.2).data) "Duration".data = true)) →
      ColutcInv done st.colutc →
      ColutcInv (done ++ suffix) st'.colutc := by
  intro suffix
  induction suffix with
  | nil =>
    intro st st' done h _ _ hinv
    cases h
    simpa using hinv
  | cons p t ih =>
    intro st st' done h hobs hdu hinv
    obtain ⟨c, d⟩ := p
    simp only [classifyFields] at h
    cases hcf : classifyField xlstem st c d with
    | error e => rw [hcf] at h; exact Except.noConfusion h
    | ok st1 =>
      rw [hcf] at h
      have htr := classifyField_colutc xlstem st c d st1 hcf
        (hobs (c, d) (List.mem_cons_self _ _))
        (hdu (c, d) (List.mem_cons_self _ _))
      have hstep := ColutcInv_step done st.colutc (c, d) st1.colutc hinv htr
      have := ih st1 st' (done ++ [(c, d)]) h
        (fun q hq => hobs q (List.mem_cons_of_mem _ hq))
        (fun q hq => hdu q (List.mem_cons_of_mem _ hq)) hstep
      simpa using this

/-- C5: during classification of a visibility report (hypotheses: no
field consumed by the Observer branch contains `UTC` or `Duration`, and
no field contains both markers), the first two fields containing `UTC`
— in field order — are bound as the start-time and stop-time columns,
and a third column is bound only by a field containing `Duration`
encountered when both time columns are already bound. -/
theorem classify_binds_time_columns (xlstem : String) (rows : List (List String))
    (st' : ClsState) (hok : classifyReport xlstem rows = .ok st')
    (hobs : ∀ p ∈ allFields rows, ∀ obs,
      matchObserverRem (stripCRLF (p.2).data) = some obs →
      containsSub (stripCRLF (p.2).data) "UTC".data = false ∧
      containsSub (stripCRLF (p.2).data) "Duration".data = false)
    (hdu : ∀ p ∈ allFields rows, ¬(containsSub (stripCRLF (p.2).data) "UTC".data = true ∧
      containsSub (stripCRLF (p.2).data) "Duration".data = true)) :
    st'.colutc.take 2 = (utcColsOf (allFields rows)).take 2 ∧
      st'.colutc.length ≤ 3 ∧
      (st'.colutc.length < 2 → st'.colutc = utcColsOf (allFields rows)) ∧
      (st'.colutc.length = 3 → 2 ≤ (utcColsOf (allFields rows)).length ∧
        ∃ pre q post, allFields rows = pre ++ q :: post ∧
          containsSub (stripCRLF (q.2).data) "Duration".data = true ∧
          st'.colutc.getD 2 0 = q.1 ∧ 2 ≤ (utcColsOf pre).length) := by
  have h0 : ColutcInv [] initState.colutc := by
    refine ⟨rfl, by simp [initState], fun _ => rfl, fun h3 => ?_⟩
    simp [initState] at h3
  have hflat : classifyFields xlstem initState (allFields rows) = .ok st' := by
    rw [← classifyRows_eq_fields]
    exact hok
  have := classifyFields_colutcInv xlstem (allFields rows) initState st' [] hflat hobs hdu h0
  simpa [ColutcInv] using this

/-- A well-formed one-window visibility report (end-to-end scenario 1
shape): Target, Observer, the UTC/UTC/Duration heading row, one contact
row, and the terminating `Number of events` row. -/
def wfReportRows : List (List String) :=
  [["Target: Sat1"], ["Observer: GS_Nairobi"],
   ["Start Time (UTC)", "Stop Time (UTC)", "Duration (secs)"],
   ["01 Jan 2024 00:00:00.000", "01 Jan 2024 00:10:00.000", "600.0"],
   ["Number of events : 1"]]

/-- The state `classifyReport` computes for `wfReportRows`: columns
0, 1, 2 bound, one committed window of 600 s. -/
def wfReportState : ClsState :=
  { key1 := some "Sat1", key := some "Sat1@Nairobi", colutc := [0, 1, 2],
    starttime := some 65052979200000, stoptime := some 65052979800000,
    contact := false,
    heap := [[], [⟨65052979200000, 65052979800000, "600.0"⟩]],
    timesRef := 0, startstop := [("Sat1@Nairobi", 1)],
    aoikeys := ["Sat1@Nairobi"] }

/-- Witness for C5 on the well-formed report: the heading row's three
fields bind columns 0, 1 and 2. -/
theorem classify_binds_time_columns_witness :
    (classifyReport "SIGHTLocator_Sat1" wfReportRows = .ok wfReportState ∧
      wfReportState.colutc = [0, 1, 2]) ∧
    (wfReportState.colutc.take 2 = (utcColsOf (allFields wfReportRows)).take 2 ∧
      wfReportState.colutc.length ≤ 3 ∧
      (wfReportState.colutc.length < 2 →
        wfReportState.colutc = utcColsOf (allFields wfReportRows)) ∧
      (wfReportState.colutc.length = 3 →
        2 ≤ (utcColsOf (allFields wfReportRows)).length ∧
        ∃ pre q post, allFields wfReportRows = pre ++ q :: post ∧
          containsSub (stripCRLF (q.2).data) "Duration".data = true ∧
          wfReportState.colutc.getD 2 0 = q.1 ∧ 2 ≤ (utcColsOf pre).length)) :=
  ⟨⟨by decide, by decide⟩,
    classify_binds_time_columns "SIGHTLocator_Sat1" wfReportRows wfReportState
      (by decide) (by decide) (by decide)⟩

/-! ### C4: committing the accumulated windows -/

theorem lookup_updateAssoc (m : List (String × Nat)) (k : String) (v : Nat) :
    List.lookup k (updateAssoc m k v) = some v := by
  induction m with
  | nil => simp [updateAssoc, List.lookup]
  | cons p t ih =>
    obtain ⟨k', v'⟩ := p
    by_cases h : k' = k
    · subst h
      simp [updateAssoc, List.lookup]
    · have hbeq : (k' == k) = false := by simpa using h
      have hbeq2 : (k == k') = false := by simpa using Ne.symm h
      simp [updateAssoc, hbeq, List.lookup, hbeq2, ih]

theorem isPrefixOfB_head {p : Char} {ps cs : List Char}
    (h : isPrefixOfB (p :: ps) cs = true) :
    ∃ t, cs = p :: t ∧ isPrefixOfB ps t = true := by
  cases cs with
  | nil => exact Bool.noConfusion h
  | cons c t =>
    simp only [isPrefixOfB, Bool.and_eq_true, beq_iff_eq] at h
    exact ⟨t, by rw [h.1], h.2⟩

/-- A field starting with `Number of events` starts with `N`, hence
matches neither the `Target:` nor the `Observer:` prefix. -/
theorem numevents_no_target_observer {data : List Char}
    (h : isPrefixOfB "Number of events".data data = true) :
    matchTargetRem data = none ∧ matchObserverRem data = none := by
  have hN : "Number of events".data = 'N' :: "umber of events".data := by decide
  rw [hN] at h
  obtain ⟨t, rfl, _⟩ := isPrefixOfB_head h
  constructor
  · unfold matchTargetRem
    rw [show "Target:".data = 'T' :: "arget:".data from by decide]
    simp [isPrefixOfB]
  · unfold matchObserverRem
    rw [show "Observer:".data = 'O' :: "bserver:".data from by decide]
    simp [isPrefixOfB]

/-- C4 as amended: classifying a field that starts with
`Number of events` while the accumulator is non-empty commits a deep
copy of the accumulated triples under the current compound key (a fresh
heap cell, here `st.heap.length`) and clears the accumulator; and the
committed copy is never altered by any subsequent classification steps
— in particular not by the clearing or reuse of the accumulator.
(Side hypotheses keep the field out of the earlier branches and the
contact kludge, as in a real report.) -/
theorem numevents_commits_and_isolates (xlstem : String) (st : ClsState) (col : Nat)
    (d : String) (k : String)
    (hpref : isPrefixOfB "Number of events".data (stripCRLF d.data) = true)
    (hutc : containsSub (stripCRLF d.data) "UTC".data = false)
    (hdur : containsSub (stripCRLF d.data) "Duration".data = false)
    (htime : parseGmatTime (String.mk (stripCRLF d.data)) = none)
    (hcon : st.contact = false)
    (hne : st.heap.getD st.timesRef [] ≠ [])
    (hkey : st.key = some k)
    (htref : st.timesRef < st.heap.length) :
    ∃ st', classifyField xlstem st col d = .ok st' ∧
      st'.startstop = updateAssoc st.startstop k st.heap.length ∧
      List.lookup k st'.startstop = some st.heap.length ∧
      st'.heap[st.heap.length]? = some (st.heap.getD st.timesRef []) ∧
      st'.heap[st.timesRef]? = some [] ∧
      ∀ (fs : List (Nat × String)) (st'' : ClsState),
        classifyFields xlstem st' fs = .ok st'' →
        st''.heap[st.heap.length]? = some (st.heap.getD st.timesRef []) := by
  have hd0 : ¬ (d.data.length = 0) := by
    intro h0
    have hnil : d.data = [] := List.length_eq_zero.mp h0
    rw [hnil] at hpref
    have : stripCRLF [] = [] := rfl
    rw [this] at hpref
    have hN : "Number of events".data = 'N' :: "umber of events".data := by decide
    rw [hN] at hpref
    exact Bool.noConfusion hpref
  obtain ⟨hmt, hmo⟩ := numevents_no_target_observer hpref
  have hpos : 0 < (st.heap.getD st.timesRef []).length := List.length_pos.mpr hne
  have hstep : classifyField xlstem st col d = .ok { st with
      startstop := updateAssoc st.startstop k st.heap.length,
      heap := (st.heap ++ [st.heap.getD st.timesRef []]).set st.timesRef [] } := by
    unfold classifyField
    rw [if_neg hd0]
    simp only [hmt, hmo]
    unfold utcBranch
    rw [hutc]
    simp only [Bool.false_eq_true, if_false]
    unfold durationBranch
    rw [hdur]
    simp only [Bool.false_eq_true, if_false]
    unfold timeBranch
    rw [htime]
    unfold contactBranch
    rw [hcon]
    simp only [Bool.false_eq_true, if_false]
    unfold numEventsBranch
    rw [hpref]
    simp only [if_true, hpos, hkey]
    rw [hcon]
  refine ⟨_, hstep, rfl, lookup_updateAssoc _ _ _, ?_, ?_, ?_⟩
  · show ((st.heap ++ [st.heap.getD st.timesRef []]).set st.timesRef [])[st.heap.length]?
      = some (st.heap.getD st.timesRef [])
    rw [List.getElem?_set_ne (by omega)]
    simp
  · show ((st.heap ++ [st.heap.getD st.timesRef []]).set st.timesRef [])[st.timesRef]?
      = some []
    exact List.getElem?_set_eq_of_lt [] (by simp; omega)
  · intro fs st'' hfs
    have hframe := classifyFields_frame xlstem fs _ st'' hfs
    obtain ⟨ht, hl, hp⟩ := hframe
    have hj := hp st.heap.length (by simp) (by simp; omega)
    rw [hj]
    show ((st.heap ++ [st.heap.getD st.timesRef []]).set st.timesRef [])[st.heap.length]?
      = some (st.heap.getD st.timesRef [])
    rw [List.getElem?_set_ne (by omega)]
    simp

/-- A state about to classify a terminator field with an *empty*
accumulator: key bound, `times` empty (as after `times.clear()`). -/
def emptyAccState : ClsState :=
  { initState with key := some "Sat1@Nairobi" }

/-- C4 counterexample: classifying the field `Number of events : 0`
with an empty accumulator commits nothing — the Time-Window map still
has no entry for the current key (and the state is unchanged), whereas
the claim as stated requires the accumulated (empty) list to be
committed under the key whenever such a field is classified. -/
theorem numevents_empty_no_commit :
    classifyField "SIGHTLocator_Sat1" emptyAccState 0 "Number of events : 0" =
        .ok emptyAccState ∧
      List.lookup "Sat1@Nairobi" emptyAccState.startstop = none :=
  ⟨by decide, by decide⟩

/-- Witness for C4 at a state holding one accumulated window: the
commit creates heap cell 1 holding the copy, clears cell 0, and the
copy survives the subsequent `Number of events : 0` step that reuses
the (now empty) accumulator. -/
theorem numevents_commits_and_isolates_witness :
    (isPrefixOfB "Number of events".data
        (stripCRLF ("Number of events : 1").data) = true ∧
      ({ initState with
          key := some "Sat1@Nairobi",
          heap := [[⟨100, 200, "100.0"⟩]] } : ClsState).heap.getD 0 [] ≠ []) ∧
    ∃ st', classifyField "SIGHTLocator_Sat1"
        { initState with
          key := some "Sat1@Nairobi",
          heap := [[⟨100, 200, "100.0"⟩]] } 0 "Number of events : 1" = .ok st' ∧
      st'.startstop = updateAssoc ({ initState with
          key := some "Sat1@Nairobi",
          heap := [[⟨100, 200, "100.0"⟩]] } : ClsState).startstop "Sat1@Nairobi" 1 ∧
      List.lookup "Sat1@Nairobi" st'.startstop = some 1 ∧
      st'.heap[1]? = some [⟨100, 200, "100.0"⟩] ∧
      st'.heap[0]? = some [] ∧
      ∀ (fs : List (Nat × String)) (st'' : ClsState),
        classifyFields "SIGHTLocator_Sat1" st' fs = .ok st'' →
        st''.heap[1]? = some [⟨100, 200, "100.0"⟩] :=
  ⟨⟨by decide, by decide⟩,
    numevents_commits_and_isolates "SIGHTLocator_Sat1"
      { initState with key := some "Sat1@Nairobi", heap := [[⟨100, 200, "100.0"⟩]] }
      0 "Number of events : 1" "Sat1@Nairobi"
      (by decide) (by decide) (by decide) (by decide) (by decide) (by decide)
      (by decide) (by decide)⟩

/-! ### C8: ordering of the produced triples -/

/-- A syntactically well-formed visibility report whose contact row
lists the *later* timestamp in the start column. -/
def unorderedReportRows : List (List String) :=
  [["Target: Sat1"], ["Observer: GS_Nairobi"],
   ["Start Time (UTC)", "Stop Time (UTC)", "Duration (secs)"],
   ["02 Jan 2024 00:00:00.000", "01 Jan 2024 00:00:00.000", "120.5"],
   ["Number of events : 1"]]

/-- Classification succeeded and some produced triple has
`stop < start`. -/
def hasUnorderedCommit (stem : String) (rows : List (List String)) : Bool :=
  match classifyReport stem rows with
  | .ok st => (producedTriples st).any fun tr => decide (tr.stop < tr.start)
  | .error _ => false

/-- C8 counterexample: classifying `unorderedReportRows` completes
without error and commits the triple
(02 Jan 2024, 01 Jan 2024, "120.5") whose start exceeds its stop —
the classifier performs no `start ≤ stop` check. -/
theorem classify_unordered_triple :
    hasUnorderedCommit "SIGHTLocator_Sat1" unorderedReportRows = true := by decide

/-- C8 as amended: the only step that produces a visibility triple (the
contact kludge at lines 259-265) copies the currently held start and
stop times verbatim into the triple with no ordering check, so the
produced triple satisfies `start ≤ stop` exactly when the held times
do; a report listing the later time in the start column yields a triple
with `start > stop`. -/
theorem contact_appends_verbatim (xlstem : String) (st : ClsState) (col : Nat)
    (d : String) (s p : Nat)
    (hne : d.data.length ≠ 0)
    (hmt : matchTargetRem (stripCRLF d.data) = none)
    (hmo : matchObserverRem (stripCRLF d.data) = none)
    (hutc : containsSub (stripCRLF d.data) "UTC".data = false)
    (hdur : containsSub (stripCRLF d.data) "Duration".data = false)
    (htime : parseGmatTime (String.mk (stripCRLF d.data)) = none)
    (hcon : st.contact = true)
    (hc2 : st.colutc.get? 2 = some col)
    (hs : st.starttime = some s)
    (hp : st.stoptime = some p) :
    classifyField xlstem st col d = .ok { st with
      contact := false,
      heap := st.heap.set st.timesRef
        ((st.heap.getD st.timesRef []) ++ [⟨s, p, String.mk (stripCRLF d.data)⟩]) } ∧
    ((⟨s, p, String.mk (stripCRLF d.data)⟩ : VisTriple).start ≤
        (⟨s, p, String.mk (stripCRLF d.data)⟩ : VisTriple).stop ↔ s ≤ p) := by
  refine ⟨?_, Iff.rfl⟩
  unfold classifyField
  rw [if_neg hne]
  simp only [hmt, hmo]
  unfold utcBranch
  rw [hutc]
  simp only [Bool.false_eq_true, if_false]
  unfold durationBranch
  rw [hdur]
  simp only [Bool.false_eq_true, if_false]
  unfold timeBranch
  rw [htime]
  unfold contactBranch
  rw [hcon]
  simp only [if_true, hc2, hs, hp]

/-- The classifier state just before the duration field of a contact
whose held start time exceeds its held stop time. -/
def contactStepState : ClsState :=
  { initState with
    contact := true, colutc := [0, 1, 2],
    starttime := some 200, stoptime := some 100 }

/-- Witness for the amended C8 at held times 200 > 100: the duration
field `120.5` is consumed and the unordered triple is appended
verbatim. -/
theorem contact_appends_verbatim_witness :
    (contactStepState.contact = true ∧ contactStepState.starttime = some 200 ∧
      contactStepState.stoptime = some 100 ∧
      contactStepState.colutc.get? 2 = some 2) ∧
    (classifyField "SIGHTLocator_Sat1" contactStepState 2 "120.5" = .ok { contactStepState with
        contact := false,
        heap := contactStepState.heap.set contactStepState.timesRef
          ((contactStepState.heap.getD contactStepState.timesRef []) ++
            [⟨200, 100, String.mk (stripCRLF ("120.5").data)⟩]) } ∧
      ((⟨200, 100, String.mk (stripCRLF ("120.5").data)⟩ : VisTriple).start ≤
        (⟨200, 100, String.mk (stripCRLF ("120.5").data)⟩ : VisTriple).stop ↔
          (200 : Nat) ≤ 100)) :=
  ⟨⟨by decide, by decide, by decide, by decide⟩,
    contact_appends_verbatim "SIGHTLocator_Sat1" contactStepState 2 "120.5" 200 100
      (by decide) (by decide) (by decide) (by decide) (by decide) (by decide)
      (by decide) (by decide) (by decide) (by decide)⟩

/-! ### C6: the asset-id cross-check and the per-file boundary -/

/-- The outcome of `CContactReports.extend` for one file: the
try/except block at lines 143 and 457-487 catches every exception
raised during classification, logs it, and returns — `extend` never
propagates an exception to `do_batch`. -/
inductive FileOutcome where
  | completed (st : ClsState)
  | skippedValueError (msg : String)
  | skippedOther (e : PyErr)
deriving Repr, DecidableEq

/-- Embeds the per-file boundary of `extend`: classification errors are
caught inside `extend` (logged) and turn into skip outcomes. -/
def extendOutcome (xlstem : String) (rows : List (List String)) : FileOutcome :=
  match classifyReport xlstem rows with
  | .ok st => .completed st
  | .error (.valueError m) => .skippedValueError m
  | .error e => .skippedOther e

/-- Modelled from the spec: `CCleanUpReports.do_batch` (the class is
absent from `src/`; only callers and subclasses are present) iterates
the batch list and calls `extend` on each file (§4, §7); since `extend`
catches its own exceptions, the batch visits every file. -/
def do_batch (files : List (String × List (List String))) : List FileOutcome :=
  files.map fun f => extendOutcome f.1 f.2

/-- C6: when the satellite token of the filename stem does not occur
(case-insensitively) in the normalised `Target:` value, classification
raises `ValueError` (fails loudly); a `ValueError` from classification
is caught at the per-file boundary, producing a skip outcome; and the
batch produces one outcome per file regardless (no crash). -/
theorem asset_mismatch_fails_loudly (xlstem : String) (st : ClsState) (col : Nat)
    (d : String) (rem : List Char) (i j : Nat) (kc : List Char)
    (hlen : d.data.length ≠ 0)
    (hrem : matchTargetRem (stripCRLF d.data) = some rem)
    (hfn : findSatIdx xlstem.data = some i)
    (hkj : findSatIdx rem = some j)
    (hkc : keycheckOf rem j = some kc)
    (hmm : ciContains kc (xlstem.data.drop i) = false) :
    classifyField xlstem st col d = .error (.valueError
      ("Satellite number in filename " ++ xlstem ++ " does not match data from file.")) ∧
    (∀ (rows : List (List String)) (m : String),
      classifyReport xlstem rows = .error (.valueError m) →
      extendOutcome xlstem rows = .skippedValueError m) ∧
    (∀ files : List (String × List (List String)),
      (do_batch files).length = files.length) := by
  refine ⟨?_, ?_, ?_⟩
  · unfold classifyField
    rw [if_neg hlen]
    simp only [hrem]
    unfold targetBranch
    simp only [hfn, hkj, hkc, hmm, Bool.false_eq_true, if_false]
  · intro rows m h
    unfold extendOutcome
    rw [h]
  · intro files
    simp [do_batch]

/-- Witness for C6: end-to-end scenario 3 — filename stem
`SIGHTLocator_Sat2`, field `Target: Sat1`.  The mismatch raises the
`ValueError`, `extend` turns it into a skip, and a two-file batch with
this bad file still processes the good file. -/
theorem asset_mismatch_fails_loudly_witness :
    (("Target: Sat1" : String).data.length ≠ 0 ∧
      matchTargetRem (stripCRLF ("Target: Sat1" : String).data) = some "Sat1".data ∧
      findSatIdx ("SIGHTLocator_Sat2" : String).data = some 13 ∧
      findSatIdx "Sat1".data = some 0 ∧
      keycheckOf "Sat1".data 0 = some "Sat1".data ∧
      ciContains "Sat1".data (("SIGHTLocator_Sat2" : String).data.drop 13) = false ∧
      do_batch [("SIGHTLocator_Sat2", unorderedReportRows.take 1),
          ("SIGHTLocator_Sat1", wfReportRows)] =
        [.skippedValueError
          "Satellite number in filename SIGHTLocator_Sat2 does not match data from file.",
         .completed wfReportState]) ∧
    (classifyField "SIGHTLocator_Sat2" initState 0 "Target: Sat1" = .error (.valueError
      ("Satellite number in filename " ++ "SIGHTLocator_Sat2" ++
        " does not match data from file.")) ∧
    (∀ (rows : List (List String)) (m : String),
      classifyReport "SIGHTLocator_Sat2" rows = .error (.valueError m) →
      extendOutcome "SIGHTLocator_Sat2" rows = .skippedValueError m) ∧
    (∀ files : List (String × List (List String)),
      (do_batch files).length = files.length)) :=
  ⟨⟨by decide, by decide, by decide, by decide, by decide, by decide, by decide⟩,
    asset_mismatch_fails_loudly "SIGHTLocator_Sat2" initState 0 "Target: Sat1"
      "Sat1".data 13 0 "Sat1".data
      (by decide) (by decide) (by decide) (by decide) (by decide) (by decide)⟩

/-! ## C7: the emission loop and missing Correlation Keys

ContactReports.py lines 282-449: for each `(key, contacts)` in
`startstop`, the loop looks up `self.links[key]`; a `KeyError` is
caught, a warning is surfaced (line 293 merely *constructs* a
`KeyError` object without raising it; line 294 prints the warning) and
`continue` moves to the next key.  With the key present, the Link
Report workbook is opened and the block for this key is written; the
Excel writing carries no further control flow for this claim and is
abstracted into an `EmittedBlock`.  The loop body never lets an
exception escape for a missing key. -/

/-- One correlated block written for a key found in the links lookup. -/
structure EmittedBlock where
  key : String
  linkfile : String
  contacts : List VisTriple
deriving Repr, DecidableEq

/-- Embeds the `for key, contacts in startstop.items()` loop of lines
284-449, restricted to its lookup/skip control flow: returns the
emitted blocks and the warnings printed for missing keys. -/
def emitContacts (links : List (String × String)) :
    List (String × List VisTriple) → List EmittedBlock × List String
  | [] => ([], [])
  | (key, contacts) :: rest =>
    let r := emitContacts links rest
    match List.lookup key links with
    | none =>
      (r.1, ("Key " ++ key ++
        " not associated with Link Report file in links dictionary. Continuing.") :: r.2)
    | some linkfile =>
      ({ key := key, linkfile := linkfile, contacts := contacts } :: r.1, r.2)

/-- C7: a visibility window whose Correlation Key is absent from the
links lookup is skipped — no block is emitted for it — with a warning
surfaced, and every window whose key is present is still emitted; the
loop is total, so no exception propagates out of the batch for the
missing key. -/
theorem missing_key_skipped (links : List (String × String))
    (startstop : List (String × List VisTriple)) (k : String)
    (hmiss : List.lookup k links = none) :
    (∀ b ∈ (emitContacts links startstop).1, b.key ≠ k) ∧
    (∀ cs, (k, cs) ∈ startstop →
      ("Key " ++ k ++
        " not associated with Link Report file in links dictionary. Continuing.") ∈
        (emitContacts links startstop).2) ∧
    (∀ p ∈ startstop, ∀ lf, List.lookup p.1 links = some lf →
      ({ key := p.1, linkfile := lf, contacts := p.2 } : EmittedBlock) ∈
        (emitContacts links startstop).1) := by
  induction startstop with
  | nil =>
    refine ⟨?_, ?_, ?_⟩
    · intro b hb
      simp [emitContacts] at hb
    · intro cs hcs
      simp at hcs
    · intro p hp
      simp at hp
  | cons q rest ih =>
    obtain ⟨hb1, hb2, hb3⟩ := ih
    obtain ⟨qk, qc⟩ := q
    refine ⟨?_, ?_, ?_⟩
    · intro b hb
      simp only [emitContacts] at hb
      cases hl : List.lookup qk links with
      | none =>
        rw [hl] at hb
        exact hb1 b hb
      | some lf =>
        rw [hl] at hb
        rcases List.mem_cons.mp hb with rfl | hb'
        · intro hkq
          have hqk : qk = k := hkq
          rw [hqk] at hl
          rw [hl] at hmiss
          exact Option.noConfusion hmiss
        · exact hb1 b hb'
    · intro cs hcs
      simp only [emitContacts]
      rcases List.mem_cons.mp hcs with heq | hcs'
      · have hqk : qk = k := congrArg Prod.fst heq.symm
        rw [hqk, hmiss]
        exact List.mem_cons_self _ _
      · cases hl : List.lookup qk links with
        | none => exact List.mem_cons_of_mem _ (hb2 cs hcs')
        | some lf => exact hb2 cs hcs'
    · intro p hp lf hlf
      simp only [emitContacts]
      rcases List.mem_cons.mp hp with rfl | hp'
      · rw [hlf]
        exact List.mem_cons_self _ _
      · cases hl : List.lookup qk links with
        | none => exact hb3 p hp' lf hlf
        | some lf2 => exact List.mem_cons_of_mem _ (hb3 p hp' lf hlf)

/-- Witness for C7: key `Sat1@AOI2` is missing from a one-entry links
lookup; its window is skipped with the warning while the `Sat1@Nairobi`
window is still emitted. -/
theorem missing_key_skipped_witness :
    (List.lookup "Sat1@AOI2" [("Sat1@Nairobi", "LinkSat1.xlsx")] = none ∧
      emitContacts [("Sat1@Nairobi", "LinkSat1.xlsx")]
          [("Sat1@AOI2", [⟨1, 2, "60.0"⟩]), ("Sat1@Nairobi", [⟨3, 4, "60.0"⟩])] =
        ([{ key := "Sat1@Nairobi", linkfile := "LinkSat1.xlsx",
            contacts := [⟨3, 4, "60.0"⟩] }],
         ["Key Sat1@AOI2 not associated with Link Report file in links dictionary. Continuing."])) ∧
    ((∀ b ∈ (emitContacts [("Sat1@Nairobi", "LinkSat1.xlsx")]
        [("Sat1@AOI2", [⟨1, 2, "60.0"⟩]), ("Sat1@Nairobi", [⟨3, 4, "60.0"⟩])]).1,
        b.key ≠ "Sat1@AOI2") ∧
      (∀ cs, ("Sat1@AOI2", cs) ∈
          [("Sat1@AOI2", [(⟨1, 2, "60.0"⟩ : VisTriple)]), ("Sat1@Nairobi", [⟨3, 4, "60.0"⟩])] →
        ("Key " ++ "Sat1@AOI2" ++
          " not associated with Link Report file in links dictionary. Continuing.") ∈
          (emitContacts [("Sat1@Nairobi", "LinkSat1.xlsx")]
            [("Sat1@AOI2", [⟨1, 2, "60.0"⟩]), ("Sat1@Nairobi", [⟨3, 4, "60.0"⟩])]).2) ∧
      (∀ p ∈ [("Sat1@AOI2", [(⟨1, 2, "60.0"⟩ : VisTriple)]), ("Sat1@Nairobi", [⟨3, 4, "60.0"⟩])],
        ∀ lf, List.lookup p.1 [("Sat1@Nairobi", "LinkSat1.xlsx")] = some lf →
        ({ key := p.1, linkfile := lf, contacts := p.2 } : EmittedBlock) ∈
          (emitContacts [("Sat1@Nairobi", "LinkSat1.xlsx")]
            [("Sat1@AOI2", [⟨1, 2, "60.0"⟩]), ("Sat1@Nairobi", [⟨3, 4, "60.0"⟩])]).1)) :=
  ⟨⟨by decide, by decide⟩,
    missing_key_skipped [("Sat1@Nairobi", "LinkSat1.xlsx")]
      [("Sat1@AOI2", [⟨1, 2, "60.0"⟩]), ("Sat1@Nairobi", [⟨3, 4, "60.0"⟩])]
      "Sat1@AOI2" (by decide)⟩

/-! ## C9: the GMAT batch runner worker

`run_gmat` in src/modelcontrol/gmat_batcher.py (lines 39-108): spawn the
GMAT subprocess, block on `proc.communicate(timeout=cpto)`, put a status
string on the managed queue for the outcome, and in the `finally` block
kill the process, drain its remaining output with a second
`communicate()`, and put the final completion message.  We embed the
worker as the sequence of externally visible actions it performs; the
subprocess's behaviour (completion, timeout, or a subprocess error
class) is the input.  `delay_run`'s randomized sleep has no effect on
the action sequence and is not modelled. -/

/-- `cpto = 300` (gmat_batcher.py line 39): child-process timeout in
seconds, five minutes per task. -/
def cpto : Nat := 300

/-- The externally visible actions of one worker, in order:
`spawn` is `sp.Popen([...])`; `communicate (some t)` is
`proc.communicate(timeout=t)`; `communicate none` is the draining
`proc.communicate()`; `putQueue` is `q.put(...)`; `kill` is
`proc.kill()`. -/
inductive WorkerAction where
  | spawn (script : String)
  | communicate (timeout : Option Nat)
  | putQueue (msg : String)
  | kill
deriving Repr, DecidableEq

/-- How the GMAT subprocess behaves for one task. -/
inductive GmatBehavior where
  | completes (outs : String)
  | timesOut
  | calledProcessError
  | subprocessError
deriving Repr, DecidableEq

/-- Embeds `os.path.basename` for the script path. -/
def basename (path : String) : String :=
  String.mk (path.data.foldl
    (fun acc c => if c == '/' || c == '\\' then [] else acc ++ [c]) [])

/-- Split on runs of whitespace, dropping empty groups (Python
`str.split()` with no argument). -/
def pySplitWs : List Char → List (List Char)
  | [] => []
  | c :: t =>
    if c.isWhitespace then pySplitWs t
    else
      match pySplitWs t with
      | [] => [[c]]
      | g :: gs =>
        match t with
        | [] => [[c]]
        | c' :: _ => if c'.isWhitespace then [c] :: g :: gs else (c :: g) :: gs

/-- `' '.join` on character-list groups. -/
def joinSpace : List (List Char) → List Char
  | [] => []
  | [g] => g
  | g :: rest => g ++ ' ' :: joinSpace rest

/-- Remove every non-overlapping left-to-right occurrence of `pat`
(Python `re.sub(pat, '', s)` for a literal pattern). -/
def removeAllSub (cs pat : List Char) : List Char :=
  if hp : pat.length = 0 then cs
  else
    match cs with
    | [] => []
    | c :: t =>
      if isPrefixOfB pat (c :: t) then removeAllSub ((c :: t).drop pat.length) pat
      else c :: removeAllSub t pat
termination_by cs.length
decreasing_by
  · simp only [List.length_drop]
    simp only [List.length_cons]
    omega
  · simp only [List.length_cons]
    omega

/-- Embeds `filter_outs` (gmat_batcher.py lines 110-126): keep the last
20 whitespace-separated tokens of the output, prefix the id, and strip
`====` runs. -/
def filter_outs (outs id : String) : String :=
  let loglines := pySplitWs outs.data
  let last20 := loglines.drop (loglines.length - 20)
  let outs2 := joinSpace last20
  String.mk (removeAllSub (id.data ++ '\n' :: outs2) "====".data)

/-- Embeds `run_gmat` (gmat_batcher.py lines 53-108) as its action
trace: spawn; blocking read with the per-task timeout `cpto`; the
outcome message of the `try`/`except` arms; then the `finally` block —
`proc.kill()`, the draining `proc.communicate()`, and the final
completion message. -/
def run_gmat (script : String) (behavior : GmatBehavior) : List WorkerAction :=
  [WorkerAction.spawn script, .communicate (some cpto)] ++
  (match behavior with
   | .completes outs => [.putQueue (filter_outs outs (basename script))]
   | .timesOut => [.putQueue ("GMAT: Timeout Expired, File: " ++ basename script)]
   | .calledProcessError => [.putQueue ("GMAT: Called ProcessError, File: " ++ basename script)]
   | .subprocessError => [.putQueue ("GMAT: Subprocess Error, File: " ++ basename script)]) ++
  [.kill, .communicate none,
   .putQueue ("********** GMAT completed mission run for file: " ++ basename script ++
     " ***********")]

/-- The pool maps `run_gmat` over the task list (line 186); each task's
trace is independent of the others. -/
def batchTraces (tasks : List (String × GmatBehavior)) : List (List WorkerAction) :=
  tasks.map fun t => run_gmat t.1 t.2

/-- C9 counterexample: in the timeout trace the worker's timeout report
(`q.put` in the `except TimeoutExpired` arm, trace index 2) comes
*before* the forcible kill (index 3) and the drain (index 4), so the
subprocess is not "terminated and drained before the worker reports"
as the claim states. -/
theorem timeout_report_precedes_kill :
    (run_gmat "model.script" .timesOut)[2]? =
        some (.putQueue "GMAT: Timeout Expired, File: model.script") ∧
      (run_gmat "model.script" .timesOut)[3]? = some .kill ∧
      (run_gmat "model.script" .timesOut)[4]? = some (.communicate none) := by
  decide

/-- C9 as amended: every blocking read in every task's trace uses the
per-task timeout `cpto = 300` (each task separately, never a shared
batch budget); on timeout the worker first reports the timeout, then
the `finally` block forcibly kills the subprocess and drains its
remaining output *before the worker's final completion report*; and
the batch produces a full trace for every task regardless of timeouts
(the batch continues). -/
theorem run_gmat_timeout_semantics (tasks : List (String × GmatBehavior)) :
    (∀ tr ∈ batchTraces tasks, ∀ t : Nat,
      WorkerAction.communicate (some t) ∈ tr → t = cpto) ∧
    (∀ p ∈ tasks, p.2 = .timesOut →
      run_gmat p.1 p.2 =
        [.spawn p.1, .communicate (some cpto),
         .putQueue ("GMAT: Timeout Expired, File: " ++ basename p.1),
         .kill, .communicate none,
         .putQueue ("********** GMAT completed mission run for file: " ++
           basename p.1 ++ " ***********")]) ∧
    (batchTraces tasks).length = tasks.length := by
  refine ⟨?_, ?_, by simp [batchTraces]⟩
  · intro tr htr t hmem
    obtain ⟨p, _, rfl⟩ := List.mem_map.mp htr
    obtain ⟨s, b⟩ := p
    cases b <;> simp [run_gmat] at hmem <;> omega
  · intro p hp hto
    obtain ⟨s, b⟩ := p
    simp only at hto
    subst hto
    simp [run_gmat]

/-- Witness for the amended C9 on a two-task batch whose first task
times out: its trace is the full six-action sequence and the second
task still runs. -/
theorem run_gmat_timeout_semantics_witness :
    ((("a.script", GmatBehavior.timesOut) ∈
        [("a.script", GmatBehavior.timesOut), ("b.script", GmatBehavior.completes "ok")] ∧
      (("a.script", GmatBehavior.timesOut) : String × GmatBehavior).2 = .timesOut) ∧
      (batchTraces [("a.script", .timesOut), ("b.script", .completes "ok")]).length = 2) ∧
    ((∀ tr ∈ batchTraces [("a.script", .timesOut), ("b.script", .completes "ok")],
        ∀ t : Nat, WorkerAction.communicate (some t) ∈ tr → t = cpto) ∧
      (∀ p ∈ [("a.script", GmatBehavior.timesOut), ("b.script", GmatBehavior.completes "ok")],
        p.2 = .timesOut →
        run_gmat p.1 p.2 =
          [.spawn p.1, .communicate (some cpto),
           .putQueue ("GMAT: Timeout Expired, File: " ++ basename p.1),
           .kill, .communicate none,
           .putQueue ("********** GMAT completed mission run for file: " ++
             basename p.1 ++ " ***********")]) ∧
      (batchTraces [("a.script", .timesOut), ("b.script", .completes "ok")]).length =
        [("a.script", GmatBehavior.timesOut), ("b.script", GmatBehavior.completes "ok")].length) :=
  ⟨⟨⟨by decide, by decide⟩, by decide⟩,
    run_gmat_timeout_semantics [("a.script", .timesOut), ("b.script", .completes "ok")]⟩

/-! ## C10: `CContactReports.setlinks`

ContactReports.py lines 62-81.  `setlinks(lrfiles)` checks
`isinstance(lrfiles, dict)`: if so, `self.links = lrfiles.copy()` — a
*new* dict object with the same entries, so later mutation of the
caller's dict cannot reach `self.links`; otherwise it raises
`ValueError`, which its own handler catches and logs, so `self.links`
is untouched and no exception reaches the caller.  Python objects are
modelled by a heap of `PyVal`s addressed by `Nat` references;
`self.links` is the reference the instance holds. -/

/-- A Python value: the argument may or may not be a dict. -/
inductive PyVal where
  | dict (entries : List (String × String))
  | str (s : String)
  | num (n : Int)
  | pyNone
deriving Repr, DecidableEq

/-- `isinstance(v, dict)`. -/
def PyVal.isDict : PyVal → Bool
  | .dict _ => true
  | _ => false

/-- Embeds `setlinks` (lines 62-81): given the heap, the reference
`self.links` currently holds, and the argument reference, returns the
new heap and the reference `self.links` holds afterwards.  The dict
case allocates the copy at a fresh reference (`heap.length`); every
non-dict argument leaves the state unchanged (the `ValueError` is
raised, caught and logged inside `setlinks` — the function is total). -/
def setlinks (heap : List PyVal) (selfLinks lrfiles : Nat) : List PyVal × Nat :=
  match heap.getD lrfiles .pyNone with
  | .dict d => (heap ++ [.dict d], heap.length)
  | _ => (heap, selfLinks)

/-- C10: `setlinks` with a non-dict argument leaves `self.links` (both
the reference and every heap cell) unchanged and propagates no
exception; with a dict argument it makes `self.links` a fresh copy of
the argument's entries, and mutating the caller's dict afterwards (any
overwrite of the argument's cell) does not alter what `self.links`
refers to. -/
theorem setlinks_spec (heap : List PyVal) (selfLinks lrfiles : Nat)
    (hlr : lrfiles < heap.length) :
    ((heap.getD lrfiles PyVal.pyNone).isDict = false →
      setlinks heap selfLinks lrfiles = (heap, selfLinks)) ∧
    (∀ d, heap.getD lrfiles PyVal.pyNone = .dict d →
      (setlinks heap selfLinks lrfiles).2 ≠ lrfiles ∧
      (setlinks heap selfLinks lrfiles).1.getD (setlinks heap selfLinks lrfiles).2
          PyVal.pyNone = .dict d ∧
      ∀ w, ((setlinks heap selfLinks lrfiles).1.set lrfiles w).getD
          (setlinks heap selfLinks lrfiles).2 PyVal.pyNone = .dict d) := by
  constructor
  · intro hnd
    unfold setlinks
    cases hv : heap.getD lrfiles PyVal.pyNone with
    | dict d => rw [hv] at hnd; exact Bool.noConfusion hnd
    | str s => rfl
    | num n => rfl
    | pyNone => rfl
  · intro d hv
    have hset : setlinks heap selfLinks lrfiles = (heap ++ [.dict d], heap.length) := by
      unfold setlinks
      rw [hv]
    rw [hset]
    refine ⟨by simp only; omega, ?_, ?_⟩
    · show (heap ++ [PyVal.dict d]).getD heap.length PyVal.pyNone = PyVal.dict d
      rw [List.getD_eq_getElem?_getD]
      simp
    · intro w
      show ((heap ++ [PyVal.dict d]).set lrfiles w).getD heap.length PyVal.pyNone =
        PyVal.dict d
      rw [List.getD_eq_getElem?_getD, List.getElem?_set_ne (by omega)]
      simp

/-- Witness for C10: a two-cell heap where cell 1 is the caller's dict;
the non-dict case is exercised at cell 0 (a string).  After `setlinks`
copies cell 1 to the fresh cell 2, overwriting the caller's cell 1
leaves the copy intact. -/
theorem setlinks_spec_witness :
    ((1 : Nat) < [PyVal.str "x", PyVal.dict [("Sat1@Nairobi", "LinkSat1.xlsx")]].length ∧
      setlinks [PyVal.str "x", PyVal.dict [("Sat1@Nairobi", "LinkSat1.xlsx")]] 0 1 =
        ([PyVal.str "x", PyVal.dict [("Sat1@Nairobi", "LinkSat1.xlsx")],
          PyVal.dict [("Sat1@Nairobi", "LinkSat1.xlsx")]], 2)) ∧
    ((([PyVal.str "x", PyVal.dict [("Sat1@Nairobi", "LinkSat1.xlsx")]].getD 1
          PyVal.pyNone).isDict = false →
        setlinks [PyVal.str "x", PyVal.dict [("Sat1@Nairobi", "LinkSat1.xlsx")]] 0 1 =
          ([PyVal.str "x", PyVal.dict [("Sat1@Nairobi", "LinkSat1.xlsx")]], 0)) ∧
      (∀ d, [PyVal.str "x", PyVal.dict [("Sat1@Nairobi", "LinkSat1.xlsx")]].getD 1
          PyVal.pyNone = .dict d →
        (setlinks [PyVal.str "x", PyVal.dict [("Sat1@Nairobi", "LinkSat1.xlsx")]] 0 1).2 ≠ 1 ∧
        (setlinks [PyVal.str "x", PyVal.dict [("Sat1@Nairobi", "LinkSat1.xlsx")]] 0 1).1.getD
            (setlinks [PyVal.str "x", PyVal.dict [("Sat1@Nairobi", "LinkSat1.xlsx")]] 0 1).2
            PyVal.pyNone = .dict d ∧
        ∀ w, ((setlinks [PyVal.str "x", PyVal.dict [("Sat1@Nairobi", "LinkSat1.xlsx")]] 0 1).1.set
            1 w).getD
            (setlinks [PyVal.str "x", PyVal.dict [("Sat1@Nairobi", "LinkSat1.xlsx")]] 0 1).2
            PyVal.pyNone = .dict d)) :=
  ⟨⟨by decide, by decide⟩,
    setlinks_spec [PyVal.str "x", PyVal.dict [("Sat1@Nairobi", "LinkSat1.xlsx")]] 0 1
      (by decide)⟩

end GMATAuto
